import Mathlib

/-! goffprobe: aggregation of ffprobe output into a `VideoInfo` summary

A shallow embedding of `goffprobe.go`.

* Go `string` values are Lean `String`s.  Where the Go code walks the bytes of a
  string (`strconv.ParseUint`), the embedding walks the characters: every byte of
  a multi-byte UTF-8 sequence is `>= 0x80` and takes the same rejecting branch as
  the code point it belongs to.
* `uint64` values are `Nat`s, with `% 2^64` written at every addition and
  subtraction that the machine performs modulo `2^64`.
* `int` values (64-bit) are `Int`s, with `wrapInt64` at the one multiplication.
* A Go `panic` is the `.error` branch of `Except Panic`.
* The subprocess, the wall clock, `filepath.Base`, `strconv.ParseFloat` and
  `math.Ceil` are parameters, collected in `Env`.
-/

namespace Goffprobe

/-! ## Data model (goffprobe.go, lines 15-136) -/

/-- Go struct `Disposition`. -/
structure Disposition where
  Default : Int := 0
  Dub : Int := 0
  Original : Int := 0
  Comment : Int := 0
  Lyrics : Int := 0
  Karaoke : Int := 0
  Forced : Int := 0
  HearingImpaired : Int := 0
  VisualImpaired : Int := 0
  CleanEffects : Int := 0
  AttachedPic : Int := 0
  TimedThumbnails : Int := 0
  deriving DecidableEq, Repr

/-- Go struct `StreamTags`. -/
structure StreamTags where
  Language : String := ""
  HandlerName : String := ""
  deriving DecidableEq, Repr

/-- Go struct `Stream`; every field defaults to its Go zero value. -/
structure Stream where
  Index : Int := 0
  CodecName : String := ""
  CodecLongName : String := ""
  Profile : String := ""
  CodecType : String := ""
  CodecTimeBase : String := ""
  CodecTagString : String := ""
  CodecTag : String := ""
  Width : Int := 0
  Height : Int := 0
  CodedWidth : Int := 0
  CodedHeight : Int := 0
  ClosedCaptions : Int := 0
  HasBFrames : Int := 0
  SampleAspectRatio : String := ""
  DisplayAspectRatio : String := ""
  PixFmt : String := ""
  Level : Int := 0
  ChromaLocation : String := ""
  Refs : Int := 0
  IsAvc : String := ""
  NalLengthSize : String := ""
  RFrameRate : String := ""
  AvgFrameRate : String := ""
  TimeBase : String := ""
  StartPts : Int := 0
  StartTime : String := ""
  DurationTs : Int := 0
  Duration : String := ""
  BitRate : String := ""
  BitsPerRawSample : String := ""
  NbFrames : String := ""
  Disposition : Disposition := {}
  Tags : StreamTags := {}
  SampleFmt : String := ""
  SampleRate : String := ""
  Channels : Int := 0
  ChannelLayout : String := ""
  BitsPerSample : Int := 0
  MaxBitRate : String := ""
  deriving DecidableEq, Repr

/-- Go struct `FormatTags`. -/
structure FormatTags where
  MajorBrand : String := ""
  MinorVersion : String := ""
  CompatibleBrands : String := ""
  Encoder : String := ""
  deriving DecidableEq, Repr

/-- Go struct `Format`. -/
structure Format where
  Filename : String := ""
  NbStreams : Int := 0
  NbPrograms : Int := 0
  FormatName : String := ""
  FormatLongName : String := ""
  StartTime : String := ""
  Duration : String := ""
  Size : String := ""
  BitRate : String := ""
  ProbeScore : Int := 0
  Tags : FormatTags := {}
  deriving DecidableEq, Repr

/-- Go struct `ProbeResult`. -/
structure ProbeResult where
  Streams : List Stream := []
  Format : Format := {}
  deriving DecidableEq, Repr

/-- Go struct `VideoInfo`; the defaults are the zero values of `var v VideoInfo`. -/
structure VideoInfo where
  ProbeResult : ProbeResult := {}
  VideoFormats : List String := []
  VideoBitrates : List Nat := []
  AudioFormats : List String := []
  AudioBitrates : List Nat := []
  Bitrate : Nat := 0
  Duration : Int := 0
  Filename : String := ""
  Pixels : Int := 0
  Basename : String := ""
  AtTime : Int := 0
  HasMultipleAudio : Bool := false
  HasMultipleVideo : Bool := false
  SimpleDescription : String := ""
  VideoFormat : String := ""
  AudioFormat : String := ""
  VideoBitrate : Nat := 0
  AudioBitrate : Nat := 0
  deriving DecidableEq, Repr

/-! ## Errors -/

/-- The two error values of package strconv: `ErrSyntax` and `ErrRange`. -/
inductive NumErrKind
  | invalid
  | outOfRange
  deriving DecidableEq, Repr

/-- Go struct `strconv.NumError`: the failing function, its input, the reason. -/
structure NumError where
  Func : String
  Num : String
  Err : NumErrKind
  deriving DecidableEq, Repr

/-- The value handed to `panic`. -/
inductive Panic
  | numError (e : NumError)
  | message (s : String)
  | external (s : String)
  deriving DecidableEq, Repr

/-! ## Machine arithmetic -/

/-- Number of values of a `uint64`. -/
def twoPow64 : Nat := 2 ^ 64

/-- Go `math.MaxInt` on a 64-bit platform. -/
def MaxInt : Nat := 2 ^ 63 - 1

/-- Go `math.MaxUint64`. -/
def maxUint64 : Nat := 2 ^ 64 - 1

/-- Addition of two `uint64` values. -/
def addU64 (a b : Nat) : Nat := (a + b) % twoPow64

/-- Subtraction of two `uint64` values. -/
def subU64 (a b : Nat) : Nat := (a + twoPow64 - b % twoPow64) % twoPow64

/-- Reduction of an exact integer to the value a 64-bit `int` holds. -/
def wrapInt64 (x : Int) : Int := (x + 2 ^ 63) % 2 ^ 64 - 2 ^ 63

/-! ## Library functions used by the source -/

/-- Digit value that the loop of `strconv.ParseUint` assigns to one character:
decimal digits count 0-9, ASCII letters of either case count 10-35, and every
other character has none. -/
def digitVal (c : Char) : Option Nat :=
  let n := c.toNat
  if 48 ≤ n ∧ n ≤ 57 then some (n - 48)
  else if 97 ≤ n ∧ n ≤ 122 then some (n - 97 + 10)
  else if 65 ≤ n ∧ n ≤ 90 then some (n - 65 + 10)
  else none

/-- Outcome of one run of the digit loop of `strconv.ParseUint`. -/
def parseUintLoop : List Char → Nat → Except NumErrKind Nat
  | [], n => .ok n
  | c :: cs, n =>
    match digitVal c with
    | none => .error .invalid
    | some d =>
      if d ≥ 10 then .error .invalid
      else if n ≥ maxUint64 / 10 + 1 then .error .outOfRange
      else
        let n10 := (n * 10) % twoPow64
        let n1 := addU64 n10 d
        if n1 < n10 ∨ n1 > maxUint64 then .error .outOfRange
        else parseUintLoop cs n1

/-- Go `strconv.ParseUint(s, 10, 64)`. -/
def ParseUint (s : String) : Except NumError Nat :=
  if s = "" then .error ⟨"ParseUint", s, .invalid⟩
  else
    match parseUintLoop s.toList 0 with
    | .error k => .error ⟨"ParseUint", s, k⟩
    | .ok n => .ok n

/-- Go `strings.Join`. -/
def Join : List String → String → String
  | [], _ => ""
  | [a], _ => a
  | a :: b :: rest, sep => a ++ sep ++ Join (b :: rest) sep

/-- An operand of `fmt.Sprintf`: a string or an unsigned integer. -/
inductive Arg
  | str (s : String)
  | uint (n : Nat)
  deriving DecidableEq, Repr

/-- The format-string walk of `fmt.Sprintf`, for the verbs `%s` (string operand),
`%d` (unsigned integer operand, written in decimal) and `%%`; every other
character is copied. -/
def sprintfLoop : List Char → List Arg → String
  | [], _ => ""
  | '%' :: 's' :: rest, .str s :: args => s ++ sprintfLoop rest args
  | '%' :: 'd' :: rest, .uint n :: args => Nat.repr n ++ sprintfLoop rest args
  | '%' :: '%' :: rest, args => "%" ++ sprintfLoop rest args
  | c :: rest, args => String.singleton c ++ sprintfLoop rest args

/-- Go `fmt.Sprintf`. -/
def Sprintf (format : String) (args : List Arg) : String :=
  sprintfLoop format.toList args

/-! ## The environment of the constructor -/

/-- An effect of the constructor on the world outside the process. -/
inductive Effect
  | ffprobe (filename : String)
  | clockRead
  deriving DecidableEq, Repr

/-- What the source takes from outside: the subprocess and JSON decoding
(`callffprobe`), the wall clock as a function of the effects performed so far,
`filepath.Base`, and the float library (`strconv.ParseFloat(s, 64)` and
`int(math.Ceil(f))`) over a type `Float64` of 64-bit floats. -/
structure Env (Float64 : Type) where
  callffprobe : String → Except Panic ProbeResult
  unixNow : List Effect → Int
  Base : String → String
  ParseFloat : String → Except NumError Float64
  ceilToInt : Float64 → Int

/-! ## The aggregation (goffprobe.go, lines 138-220) -/

/-- Loop of `sum`: `result` is the accumulator. -/
def sumLoop : List Nat → Nat → Except Panic Nat
  | [], result => .ok result
  | n :: rest, result =>
    if subU64 MaxInt n < result then .error (.message "Overflow while summing")
    else sumLoop rest (addU64 result n)

/-- Go `sum(uints ...uint64) uint64`. -/
def sum (uints : List Nat) : Except Panic Nat :=
  sumLoop uints 0

/-- Go `(*VideoInfo).calculateSimpleDescription`. -/
def calculateSimpleDescription (v : VideoInfo) : Except Panic VideoInfo :=
  let v := { v with VideoFormat := Join v.VideoFormats "+" }
  let v := { v with AudioFormat := Join v.AudioFormats "+" }
  match sum v.AudioBitrates with
  | .error e => .error e
  | .ok a =>
    let v := { v with AudioBitrate := a }
    match sum v.VideoBitrates with
    | .error e => .error e
    | .ok b =>
      let v := { v with VideoBitrate := b }
      let args := [Arg.str v.VideoFormat, Arg.uint v.VideoBitrate, Arg.str v.AudioFormat,
        Arg.uint v.AudioBitrate]
      .ok { v with SimpleDescription := Sprintf "%s@%d/%s@%d" args }

/-- Loop of `calculatePixels` over the streams. -/
def pixelsLoop : List Stream → VideoInfo → VideoInfo
  | [], v => v
  | s :: rest, v =>
    if s.CodecType ≠ "video" then pixelsLoop rest v
    else
      let pixels := wrapInt64 (s.Width * s.Height)
      if pixels > v.Pixels then pixelsLoop rest { v with Pixels := pixels }
      else pixelsLoop rest v

/-- Go `(*VideoInfo).calculatePixels`. -/
def calculatePixels (v : VideoInfo) : VideoInfo :=
  pixelsLoop v.ProbeResult.Streams v

/-- Go `(*VideoInfo).calculateDuration`. -/
def calculateDuration {Float64 : Type} (env : Env Float64) (v : VideoInfo) : Except Panic VideoInfo :=
  match env.ParseFloat v.ProbeResult.Format.Duration with
  | .error err => .error (.numError err)
  | .ok f => .ok { v with Duration := env.ceilToInt f }

/-- Loop of `calculateStreamInfo` over the streams. -/
def streamInfoLoop : List Stream → VideoInfo → Except Panic VideoInfo
  | [], v => .ok v
  | s :: rest, v =>
    if s.CodecType = "video" then
      match ParseUint s.BitRate with
      | .error err => .error (.numError err)
      | .ok bitrate =>
        let v := { v with Bitrate := addU64 v.Bitrate bitrate }
        let v := { v with VideoBitrates := v.VideoBitrates ++ [bitrate] }
        let v := { v with VideoFormats := v.VideoFormats ++ [s.CodecName] }
        streamInfoLoop rest v
    else if s.CodecType = "audio" then
      match ParseUint s.BitRate with
      | .error err => .error (.numError err)
      | .ok bitrate =>
        let v := { v with Bitrate := addU64 v.Bitrate bitrate }
        let v := { v with AudioBitrates := v.AudioBitrates ++ [bitrate] }
        let v := { v with AudioFormats := v.AudioFormats ++ [s.CodecName] }
        streamInfoLoop rest v
    else streamInfoLoop rest v

/-- Go `(*VideoInfo).calculateStreamInfo`. -/
def calculateStreamInfo (v : VideoInfo) : Except Panic VideoInfo :=
  match streamInfoLoop v.ProbeResult.Streams v with
  | .error e => .error e
  | .ok v =>
    let v := { v with HasMultipleAudio := decide (v.AudioBitrates.length > 1) }
    .ok { v with HasMultipleVideo := decide (v.VideoBitrates.length > 1) }

/-- Go `NewVideoInfo`: the effects performed, in order, and the record or the
panic. -/
def NewVideoInfo {Float64 : Type} (env : Env Float64) (filename : String) :
    List Effect × Except Panic VideoInfo :=
  let v : VideoInfo := {}
  let v := { v with Filename := filename }
  let v := { v with Basename := env.Base filename }
  match env.callffprobe filename with
  | .error e => ([.ffprobe filename], .error e)
  | .ok data =>
    let v := { v with ProbeResult := data }
    let v := { v with AtTime := env.unixNow [.ffprobe filename] }
    ([.ffprobe filename, .clockRead],
      match calculateDuration env v with
      | .error e => .error e
      | .ok v =>
        match calculateStreamInfo v with
        | .error e => .error e
        | .ok v => calculateSimpleDescription (calculatePixels v))


/-! ## Specification-side notions -/

/-- An ASCII decimal digit. -/
def isDecDigit (c : Char) : Prop := 48 ≤ c.toNat ∧ c.toNat ≤ 57

instance (c : Char) : Decidable (isDecDigit c) := by
  unfold isDecDigit; infer_instance

/-- The number denoted by a run of decimal digits, read after a leading part
worth `acc`. -/
def decimalValueFrom (acc : Nat) (cs : List Char) : Nat :=
  cs.foldl (fun a c => 10 * a + (c.toNat - 48)) acc

/-- The number a string of decimal digits denotes. -/
def decimalValue (s : String) : Nat := decimalValueFrom 0 s.toList

/-- A decimal unsigned 64-bit integer: a non-empty string of decimal digits whose
value is below `2^64`. -/
def IsDecimalUint64 (s : String) : Prop :=
  s ≠ "" ∧ (∀ c ∈ s.toList, isDecDigit c) ∧ decimalValue s < 2 ^ 64

instance (s : String) : Decidable (IsDecimalUint64 s) := by
  unfold IsDecimalUint64; infer_instance

/-- The stream is a video stream. -/
def isVideo (s : Stream) : Bool := decide (s.CodecType = "video")

/-- The stream is an audio stream. -/
def isAudio (s : Stream) : Bool := decide (s.CodecType = "audio")

/-- The stream is one the aggregation selects: video or audio. -/
def isSelected (s : Stream) : Bool := isVideo s || isAudio s

/-- The probe result with every stream that is neither video nor audio deleted. -/
def dropOther (data : ProbeResult) : ProbeResult :=
  { data with Streams := data.Streams.filter isSelected }

/-- The record with its embedded probe result replaced. -/
def setProbe (data : ProbeResult) (v : VideoInfo) : VideoInfo :=
  { v with ProbeResult := data }

/-- The environment in which ffprobe reports no stream that is neither video nor
audio, and which is otherwise `env`. -/
def dropOtherEnv {Float64 : Type} (env : Env Float64) : Env Float64 :=
  { env with callffprobe := fun filename => (env.callffprobe filename).map dropOther }

/-- The string contains a decimal digit, as every decimal number does. -/
def hasDecimalDigit (s : String) : Bool :=
  s.toList.any (fun c => decide (isDecDigit c))

/-- In a sequence of effects, `b` occurs after the first occurrence of `a`. -/
def precedes (a b : Effect) (trace : List Effect) : Bool :=
  match trace.dropWhile (fun e => decide (e ≠ a)) with
  | [] => false
  | _ :: later => later.contains b

/-! ## Evaluation environment -/

/-- An environment in which ffprobe answers `data` for every path, the clock
stands at 0, `Base` returns its argument, and the float library is exact on the
unsigned integer literals and rejects every other string. -/
def fixedEnv (data : ProbeResult) : Env Nat where
  callffprobe := fun _ => .ok data
  unixNow := fun _ => 0
  Base := fun p => p
  ParseFloat := fun s =>
    match ParseUint s with
    | .ok n => .ok n
    | .error e => .error ⟨"ParseFloat", s, e.Err⟩
  ceilToInt := fun n => Int.ofNat n

/-- The 64-bit floats that the evaluation environment `tickingEnv` produces: the
integers of magnitude below 2^53, which a 64-bit float holds exactly, and NaN. -/
inductive SampleFloat
  | int (n : Int)
  | nan
  deriving DecidableEq, Repr

/-- `strconv.ParseFloat(s, 64)` on the strings whose result needs no rounding: an
optional sign and decimal digits of value below 2^53 give that integer, and the
text "NaN" in any letter case gives NaN. Every other string is reported as an
error here. -/
def parseFloatLiteral (s : String) : Except NumError SampleFloat :=
  let digits (cs : List Char) (sign : Int) : Except NumError SampleFloat :=
    if cs = [] then .error ⟨"ParseFloat", s, .invalid⟩
    else
      match parseUintLoop cs 0 with
      | .error _ => .error ⟨"ParseFloat", s, .invalid⟩
      | .ok n =>
        if n < 2 ^ 53 then .ok (.int (sign * n)) else .error ⟨"ParseFloat", s, .outOfRange⟩
  if s.toList.map Char.toLower = ['n', 'a', 'n'] then .ok .nan
  else
    match s.toList with
    | '-' :: cs => digits cs (-1)
    | '+' :: cs => digits cs 1
    | cs => digits cs 1

/-- `int(math.Ceil(f))` on a `SampleFloat`: an integer is its own ceiling; the
conversion of NaN to `int` is implementation-dependent in Go and gives the least
64-bit integer on amd64. -/
def ceilSampleFloat : SampleFloat → Int
  | .int n => n
  | .nan => -9223372036854775808

/-- An environment in which ffprobe answers `data` for every path, the clock
shows 1000 and advances by 5 with every effect, `Base` returns its argument, and
the float library is `parseFloatLiteral` and `ceilSampleFloat`. -/
def tickingEnv (data : ProbeResult) : Env SampleFloat where
  callffprobe := fun _ => .ok data
  unixNow := fun history => 1000 + 5 * history.length
  Base := fun p => p
  ParseFloat := parseFloatLiteral
  ceilToInt := ceilSampleFloat

/-- An environment in which ffprobe cannot be run, so that `callffprobe` panics
with the error of `os/exec` for every path; the clock and the float library are
those of `tickingEnv`. -/
def failingEnv : Env SampleFloat where
  callffprobe := fun _ => .error (.external "exec: ffprobe: executable file not found")
  unixNow := fun history => 1000 + 5 * history.length
  Base := fun p => p
  ParseFloat := parseFloatLiteral
  ceilToInt := ceilSampleFloat

/-! ## Sample inputs -/

/-- One audio stream in a container whose duration reads "-5". -/
def negativeDuration : ProbeResult :=
  { Streams := [{ CodecType := "audio", CodecName := "mp3", BitRate := "192000" }],
    Format := { Duration := "-5" } }

/-- One audio stream in a container whose duration reads "NaN". -/
def nanDuration : ProbeResult :=
  { Streams := [{ CodecType := "audio", CodecName := "mp3", BitRate := "192000" }],
    Format := { Duration := "NaN" } }

/-- One audio stream in a container whose duration reads "not-a-number". -/
def malformedDuration : ProbeResult :=
  { Streams := [{ CodecType := "audio", CodecName := "mp3", BitRate := "192000" }],
    Format := { Duration := "not-a-number" } }

/-- Two video streams, one with a negative width and one whose exact product
exceeds the signed 64-bit range. -/
def oddFrames : ProbeResult :=
  { Streams := [
      { CodecType := "video", CodecName := "h264", BitRate := "1000",
        Width := -1920, Height := 1080 },
      { CodecType := "video", CodecName := "av1", BitRate := "1000",
        Width := 3037000500, Height := 3037000500 }],
    Format := { Duration := "1" } }

/-- One video stream and one audio stream, each with bit rate 2^63 - 1. -/
def maxVideoMaxAudio : ProbeResult :=
  { Streams := [
      { CodecType := "video", CodecName := "h264", BitRate := "9223372036854775807" },
      { CodecType := "audio", CodecName := "aac", BitRate := "9223372036854775807" }],
    Format := { Duration := "1" } }

/-- Two video streams, two audio streams, and between them a subtitle stream and
a data stream whose bit rates are not numbers. -/
def mixedStreams : ProbeResult :=
  { Streams := [
      { Index := 0, CodecType := "video", CodecName := "h264", BitRate := "5000000",
        Width := 1920, Height := 1080 },
      { Index := 1, CodecType := "subtitle", CodecName := "srt", BitRate := "N/A" },
      { Index := 2, CodecType := "video", CodecName := "av1", BitRate := "2800000",
        Width := 1280, Height := 720 },
      { Index := 3, CodecType := "audio", CodecName := "aac", BitRate := "48000" },
      { Index := 4, CodecType := "data", CodecName := "bin_data" },
      { Index := 5, CodecType := "audio", CodecName := "opus", BitRate := "16000" }],
    Format := { Duration := "30" } }

/-- A record holding one audio stream, mp3 at 192000, and no video stream. -/
def audioOnlyInfo : VideoInfo :=
  { AudioFormats := ["mp3"], AudioBitrates := [192000] }

/-- One video stream of 4294967296 by 4294967296 pixels. -/
def hugeFrame : ProbeResult :=
  { Streams := [
      { CodecType := "video", CodecName := "h264", BitRate := "1000",
        Width := 4294967296, Height := 4294967296 }],
    Format := { Duration := "1" } }

/-- Two video streams, each with bit rate 2^63. -/
def twoHugeVideo : ProbeResult :=
  { Streams := [
      { CodecType := "video", CodecName := "h264", BitRate := "9223372036854775808" },
      { CodecType := "video", CodecName := "av1", BitRate := "9223372036854775808" }],
    Format := { Duration := "1" } }

/-- Two video streams with bit rates 1 and 2^63. -/
def oneAndHugeVideo : ProbeResult :=
  { Streams := [
      { CodecType := "video", CodecName := "h264", BitRate := "1" },
      { CodecType := "video", CodecName := "av1", BitRate := "9223372036854775808" }],
    Format := { Duration := "1" } }

/-- One video stream and one audio stream, each with bit rate 2^63. -/
def hugeVideoHugeAudio : ProbeResult :=
  { Streams := [
      { CodecType := "video", CodecName := "h264", BitRate := "9223372036854775808" },
      { CodecType := "audio", CodecName := "aac", BitRate := "9223372036854775808" }],
    Format := { Duration := "1" } }

/-! ## `strconv.ParseUint` -/

theorem decimalValueFrom_ge (cs : List Char) (acc : Nat) : acc ≤ decimalValueFrom acc cs := by
  induction cs generalizing acc with
  | nil => simp [decimalValueFrom]
  | cons c cs ih =>
    have h := ih (10 * acc + (c.toNat - 48))
    simp only [decimalValueFrom, List.foldl_cons] at h ⊢
    omega

theorem digitVal_of_digit {c : Char} (h : isDecDigit c) : digitVal c = some (c.toNat - 48) := by
  unfold isDecDigit at h
  simp [digitVal, h.1, h.2]

theorem digitVal_not_digit {c : Char} (h : ¬ isDecDigit c) :
    digitVal c = none ∨ ∃ d, digitVal c = some d ∧ 10 ≤ d := by
  unfold isDecDigit at h
  unfold digitVal
  simp only
  rw [if_neg h]
  by_cases h2 : 97 ≤ c.toNat ∧ c.toNat ≤ 122
  · rw [if_pos h2]
    right; exact ⟨_, rfl, by omega⟩
  · rw [if_neg h2]
    by_cases h3 : 65 ≤ c.toNat ∧ c.toNat ≤ 90
    · rw [if_pos h3]
      right; exact ⟨_, rfl, by omega⟩
    · rw [if_neg h3]
      left; rfl

theorem parseUintLoop_ok_iff (cs : List Char) (n m : Nat) (hn : n < 2 ^ 64) :
    parseUintLoop cs n = .ok m ↔
      (∀ c ∈ cs, isDecDigit c) ∧ decimalValueFrom n cs = m ∧ m < 2 ^ 64 := by
  induction cs generalizing n with
  | nil =>
    simp only [parseUintLoop, decimalValueFrom, List.foldl_nil, List.not_mem_nil,
      Except.ok.injEq]
    constructor
    · intro h; subst h; exact ⟨fun _ h => h.elim, rfl, hn⟩
    · intro h; exact h.2.1
  | cons c cs ih =>
    by_cases hc : isDecDigit c
    · have hd := digitVal_of_digit hc
      have hlt : c.toNat - 48 < 10 := by unfold isDecDigit at hc; omega
      have hge := decimalValueFrom_ge cs (10 * n + (c.toNat - 48))
      have hstep : decimalValueFrom n (c :: cs) = decimalValueFrom (10 * n + (c.toNat - 48)) cs := by
        simp [decimalValueFrom]
      rw [hstep]
      simp only [parseUintLoop, hd, maxUint64, twoPow64, addU64]
      have hnot : ¬ (c.toNat - 48 ≥ 10) := by omega
      rw [if_neg hnot]
      by_cases hcut : n ≥ (2 ^ 64 - 1) / 10 + 1
      · rw [if_pos hcut]
        constructor
        · intro h; cases h
        · rintro ⟨_, h2, h3⟩
          have : (2 ^ 64 - 1) / 10 + 1 = 1844674407370955162 := by norm_num
          rw [this] at hcut
          have : (2:Nat) ^ 64 = 18446744073709551616 := by norm_num
          omega
      · rw [if_neg hcut]
        have hc1 : (2 ^ 64 - 1) / 10 + 1 = 1844674407370955162 := by norm_num
        have hp : (2:Nat) ^ 64 = 18446744073709551616 := by norm_num
        rw [hc1] at hcut
        have hn10 : n * 10 % 2 ^ 64 = n * 10 := Nat.mod_eq_of_lt (by omega)
        rw [hn10]
        by_cases hov : n * 10 + (c.toNat - 48) < 2 ^ 64
        · have hmod : (n * 10 + (c.toNat - 48)) % 2 ^ 64 = n * 10 + (c.toNat - 48) :=
            Nat.mod_eq_of_lt hov
          rw [hmod]
          have hno : ¬ (n * 10 + (c.toNat - 48) < n * 10 ∨ n * 10 + (c.toNat - 48) > 2 ^ 64 - 1) := by
            omega
          rw [if_neg hno]
          have hEq : n * 10 + (c.toNat - 48) = 10 * n + (c.toNat - 48) := by omega
          rw [hEq] at hov ⊢
          rw [ih _ hov]
          constructor
          · rintro ⟨h1, h2, h3⟩
            exact ⟨fun x hx => by
              rcases List.mem_cons.mp hx with rfl | hx
              · exact hc
              · exact h1 x hx, h2, h3⟩
          · rintro ⟨h1, h2, h3⟩
            exact ⟨fun x hx => h1 x (List.mem_cons_of_mem _ hx), h2, h3⟩
        · have hwrap : (n * 10 + (c.toNat - 48)) % 2 ^ 64 < n * 10 := by
            have h1 : n * 10 + (c.toNat - 48) = (n * 10 + (c.toNat - 48) - 2 ^ 64) + 2 ^ 64 := by
              omega
            rw [h1, Nat.add_mod_right, Nat.mod_eq_of_lt (by omega)]
            omega
          rw [if_pos (Or.inl hwrap)]
          constructor
          · intro h; cases h
          · rintro ⟨_, h2, h3⟩
            omega
    · constructor
      · intro h
        rcases digitVal_not_digit hc with h0 | ⟨d, h0, hd⟩
        · simp [parseUintLoop, h0] at h
        · simp [parseUintLoop, h0, hd] at h
      · rintro ⟨h1, _, _⟩
        exact absurd (h1 c (List.mem_cons_self _ _)) hc

theorem string_toList_ne_nil {s : String} (h : s ≠ "") : s.toList ≠ [] := by
  intro h0
  apply h
  cases s with
  | mk data =>
    simp only [String.toList] at h0
    subst h0
    rfl

/-- `ParseUint` returns `m` exactly on the decimal unsigned 64-bit integers, and
then `m` is the value the string denotes. -/
theorem ParseUint_ok_iff (s : String) (m : Nat) :
    ParseUint s = .ok m ↔ IsDecimalUint64 s ∧ decimalValue s = m := by
  unfold ParseUint IsDecimalUint64 decimalValue
  by_cases hs : s = ""
  · simp [hs]
  · rw [if_neg hs]
    have key := parseUintLoop_ok_iff s.toList 0 m (by norm_num)
    cases hl : parseUintLoop s.toList 0 with
    | error k =>
      simp only [false_iff, reduceCtorEq]
      rintro ⟨⟨_, h1, h2⟩, h3⟩
      rw [hl] at key
      have := key.mpr ⟨h1, h3, h3 ▸ h2⟩
      cases this
    | ok n =>
      rw [hl] at key
      simp only [Except.ok.injEq]
      constructor
      · intro h
        obtain ⟨h1, h2, h3⟩ := key.mp (by rw [h])
        exact ⟨⟨hs, h1, h2 ▸ h3⟩, h2⟩
      · rintro ⟨⟨_, h1, h2⟩, h3⟩
        have := key.mpr ⟨h1, h3, h3 ▸ h2⟩
        exact Except.ok.inj this

theorem ParseUint_isOk_iff (s : String) : (∃ m, ParseUint s = .ok m) ↔ IsDecimalUint64 s := by
  constructor
  · rintro ⟨m, h⟩; exact ((ParseUint_ok_iff s m).mp h).1
  · intro h; exact ⟨decimalValue s, (ParseUint_ok_iff s _).mpr ⟨h, rfl⟩⟩

theorem ParseUint_error_iff (s : String) : (∃ e, ParseUint s = .error e) ↔ ¬ IsDecimalUint64 s := by
  rw [← ParseUint_isOk_iff]
  cases h : ParseUint s with
  | error e => simp
  | ok n => simp

theorem ParseUint_lt {s : String} {m : Nat} (h : ParseUint s = .ok m) : m < 2 ^ 64 := by
  obtain ⟨⟨_, _, h2⟩, h3⟩ := (ParseUint_ok_iff s m).mp h
  exact h3 ▸ h2



/-! ## `calculateStreamInfo` -/

theorem isAudio_of_isVideo {s : Stream} (h : s.CodecType = "video") : isAudio s = false := by
  simp [isAudio, h]

theorem streamInfoLoop_cons_video {s : Stream} (rest : List Stream) (v : VideoInfo)
    (h : s.CodecType = "video") :
    streamInfoLoop (s :: rest) v =
      match ParseUint s.BitRate with
      | .error err => .error (.numError err)
      | .ok bitrate =>
        streamInfoLoop rest { v with
          Bitrate := addU64 v.Bitrate bitrate
          VideoBitrates := v.VideoBitrates ++ [bitrate]
          VideoFormats := v.VideoFormats ++ [s.CodecName] } := by
  simp only [streamInfoLoop, if_pos h]

theorem streamInfoLoop_cons_audio {s : Stream} (rest : List Stream) (v : VideoInfo)
    (h : s.CodecType = "audio") :
    streamInfoLoop (s :: rest) v =
      match ParseUint s.BitRate with
      | .error err => .error (.numError err)
      | .ok bitrate =>
        streamInfoLoop rest { v with
          Bitrate := addU64 v.Bitrate bitrate
          AudioBitrates := v.AudioBitrates ++ [bitrate]
          AudioFormats := v.AudioFormats ++ [s.CodecName] } := by
  have hv : ¬ s.CodecType = "video" := by rw [h]; decide
  simp only [streamInfoLoop, if_neg hv, if_pos h]

theorem streamInfoLoop_cons_other {s : Stream} (rest : List Stream) (v : VideoInfo)
    (hv : ¬ s.CodecType = "video") (ha : ¬ s.CodecType = "audio") :
    streamInfoLoop (s :: rest) v = streamInfoLoop rest v := by
  simp only [streamInfoLoop, if_neg hv, if_neg ha]

/-- What a successful run of the loop of `calculateStreamInfo` leaves in the four
sequences. -/
theorem streamInfoLoop_lists (ss : List Stream) (v v' : VideoInfo)
    (h : streamInfoLoop ss v = .ok v') :
    v'.VideoFormats = v.VideoFormats ++ (ss.filter isVideo).map (fun s => s.CodecName) ∧
    v'.VideoBitrates =
      v.VideoBitrates ++ (ss.filter isVideo).map (fun s => decimalValue s.BitRate) ∧
    v'.AudioFormats = v.AudioFormats ++ (ss.filter isAudio).map (fun s => s.CodecName) ∧
    v'.AudioBitrates =
      v.AudioBitrates ++ (ss.filter isAudio).map (fun s => decimalValue s.BitRate) := by
  induction ss generalizing v with
  | nil =>
    simp only [streamInfoLoop, Except.ok.injEq] at h
    subst h
    simp
  | cons s rest ih =>
    by_cases hv : s.CodecType = "video"
    · rw [streamInfoLoop_cons_video rest v hv] at h
      cases hp : ParseUint s.BitRate with
      | error e => rw [hp] at h; cases h
      | ok b =>
        rw [hp] at h
        have hb : decimalValue s.BitRate = b := ((ParseUint_ok_iff _ _).mp hp).2
        obtain ⟨h1, h2, h3, h4⟩ := ih _ h
        have fv : isVideo s = true := by simp [isVideo, hv]
        have fa : isAudio s = false := isAudio_of_isVideo hv
        simp only [List.filter_cons, fv, fa, List.map_cons, if_true] at *
        refine ⟨?_, ?_, ?_, ?_⟩
        · rw [h1]; simp
        · rw [h2, hb]; simp
        · rw [h3]; simp
        · rw [h4]; simp
    · by_cases ha : s.CodecType = "audio"
      · rw [streamInfoLoop_cons_audio rest v ha] at h
        cases hp : ParseUint s.BitRate with
        | error e => rw [hp] at h; cases h
        | ok b =>
          rw [hp] at h
          have hb : decimalValue s.BitRate = b := ((ParseUint_ok_iff _ _).mp hp).2
          obtain ⟨h1, h2, h3, h4⟩ := ih _ h
          have fv : isVideo s = false := by simp [isVideo, hv]
          have fa : isAudio s = true := by simp [isAudio, ha]
          simp only [List.filter_cons, fv, fa, List.map_cons, if_true] at *
          refine ⟨?_, ?_, ?_, ?_⟩
          · rw [h1]; simp
          · rw [h2]; simp
          · rw [h3]; simp
          · rw [h4, hb]; simp
      · rw [streamInfoLoop_cons_other rest v hv ha] at h
        have fv : isVideo s = false := by simp [isVideo, hv]
        have fa : isAudio s = false := by simp [isAudio, ha]
        simp only [List.filter_cons, fv, fa] at *
        simpa using ih _ h

/-- The loop of `calculateStreamInfo` writes only the running total and the four
sequences. -/
theorem streamInfoLoop_frame (ss : List Stream) (v v' : VideoInfo)
    (h : streamInfoLoop ss v = .ok v') :
    v' = { v with
      Bitrate := v'.Bitrate
      VideoBitrates := v'.VideoBitrates
      VideoFormats := v'.VideoFormats
      AudioBitrates := v'.AudioBitrates
      AudioFormats := v'.AudioFormats } := by
  induction ss generalizing v with
  | nil =>
    simp only [streamInfoLoop, Except.ok.injEq] at h
    subst h
    rfl
  | cons s rest ih =>
    by_cases hv : s.CodecType = "video"
    · rw [streamInfoLoop_cons_video rest v hv] at h
      cases hp : ParseUint s.BitRate with
      | error e => rw [hp] at h; cases h
      | ok b =>
        rw [hp] at h
        have := ih _ h
        rw [this]
    · by_cases ha : s.CodecType = "audio"
      · rw [streamInfoLoop_cons_audio rest v ha] at h
        cases hp : ParseUint s.BitRate with
        | error e => rw [hp] at h; cases h
        | ok b =>
          rw [hp] at h
          have := ih _ h
          rw [this]
      · rw [streamInfoLoop_cons_other rest v hv ha] at h
        exact ih _ h

/-- The loop of `calculateStreamInfo` fails exactly when a selected stream has a
bit rate that `ParseUint` rejects. -/
theorem streamInfoLoop_error_iff (ss : List Stream) (v : VideoInfo) :
    (∃ e, streamInfoLoop ss v = .error e) ↔
      ∃ s ∈ ss, isSelected s = true ∧ ¬ IsDecimalUint64 s.BitRate := by
  induction ss generalizing v with
  | nil => simp [streamInfoLoop]
  | cons s rest ih =>
    by_cases hv : s.CodecType = "video"
    · have fs : isSelected s = true := by simp [isSelected, isVideo, hv]
      rw [streamInfoLoop_cons_video rest v hv]
      cases hp : ParseUint s.BitRate with
      | error e =>
        have hbad : ¬ IsDecimalUint64 s.BitRate := (ParseUint_error_iff _).mp ⟨e, hp⟩
        simp only [List.mem_cons, exists_eq_or_imp]
        constructor
        · intro _; exact Or.inl ⟨fs, hbad⟩
        · intro _; exact ⟨_, rfl⟩
      | ok b =>
        have hgood : IsDecimalUint64 s.BitRate := (ParseUint_isOk_iff _).mp ⟨b, hp⟩
        simp only [List.mem_cons, exists_eq_or_imp]
        rw [ih]
        constructor
        · intro h; exact Or.inr h
        · rintro (⟨_, h⟩ | h)
          · exact absurd hgood h
          · exact h
    · by_cases ha : s.CodecType = "audio"
      · have fs : isSelected s = true := by simp [isSelected, isAudio, ha]
        rw [streamInfoLoop_cons_audio rest v ha]
        cases hp : ParseUint s.BitRate with
        | error e =>
          have hbad : ¬ IsDecimalUint64 s.BitRate := (ParseUint_error_iff _).mp ⟨e, hp⟩
          simp only [List.mem_cons, exists_eq_or_imp]
          constructor
          · intro _; exact Or.inl ⟨fs, hbad⟩
          · intro _; exact ⟨_, rfl⟩
        | ok b =>
          have hgood : IsDecimalUint64 s.BitRate := (ParseUint_isOk_iff _).mp ⟨b, hp⟩
          simp only [List.mem_cons, exists_eq_or_imp]
          rw [ih]
          constructor
          · intro h; exact Or.inr h
          · rintro (⟨_, h⟩ | h)
            · exact absurd hgood h
            · exact h
      · have fs : isSelected s = false := by simp [isSelected, isVideo, isAudio, hv, ha]
        rw [streamInfoLoop_cons_other rest v hv ha, ih]
        simp only [List.mem_cons, exists_eq_or_imp, fs]
        simp

theorem calculateStreamInfo_ok {v v' : VideoInfo} (h : calculateStreamInfo v = .ok v') :
    ∃ w, streamInfoLoop v.ProbeResult.Streams v = .ok w ∧
      v' = { w with
        HasMultipleAudio := decide (w.AudioBitrates.length > 1)
        HasMultipleVideo := decide (w.VideoBitrates.length > 1) } := by
  unfold calculateStreamInfo at h
  cases hl : streamInfoLoop v.ProbeResult.Streams v with
  | error e => rw [hl] at h; cases h
  | ok w =>
    rw [hl] at h
    simp only [Except.ok.injEq] at h
    exact ⟨w, rfl, h.symm⟩

theorem calculateStreamInfo_error_iff_loop (v : VideoInfo) :
    (∃ e, calculateStreamInfo v = .error e) ↔
      ∃ e, streamInfoLoop v.ProbeResult.Streams v = .error e := by
  unfold calculateStreamInfo
  cases hl : streamInfoLoop v.ProbeResult.Streams v with
  | error e => simp
  | ok w => simp



/-! ## `calculatePixels` -/

theorem pixelsLoop_cons_other {s : Stream} (rest : List Stream) (v : VideoInfo)
    (h : ¬ s.CodecType = "video") : pixelsLoop (s :: rest) v = pixelsLoop rest v := by
  simp only [pixelsLoop, ne_eq, h, not_false_eq_true, if_true]

theorem pixelsLoop_cons_video {s : Stream} (rest : List Stream) (v : VideoInfo)
    (h : s.CodecType = "video") :
    pixelsLoop (s :: rest) v =
      if wrapInt64 (s.Width * s.Height) > v.Pixels then
        pixelsLoop rest { v with Pixels := wrapInt64 (s.Width * s.Height) }
      else pixelsLoop rest v := by
  simp only [pixelsLoop, ne_eq, h, not_true_eq_false, if_false]

/-- The loop of `calculatePixels` writes only `Pixels`. -/
theorem pixelsLoop_frame (ss : List Stream) (v : VideoInfo) :
    pixelsLoop ss v = { v with Pixels := (pixelsLoop ss v).Pixels } := by
  induction ss generalizing v with
  | nil => rfl
  | cons s rest ih =>
    by_cases hv : s.CodecType = "video"
    · rw [pixelsLoop_cons_video rest v hv]
      split_ifs
      · have := ih { v with Pixels := wrapInt64 (s.Width * s.Height) }
        rw [this]
      · exact ih v
    · rw [pixelsLoop_cons_other rest v hv]
      exact ih v

/-- The loop of `calculatePixels` ends on the largest of the starting value and
the wrapped products of the video streams. -/
theorem pixelsLoop_max (ss : List Stream) (v : VideoInfo) :
    v.Pixels ≤ (pixelsLoop ss v).Pixels ∧
    (∀ s ∈ ss, s.CodecType = "video" →
      wrapInt64 (s.Width * s.Height) ≤ (pixelsLoop ss v).Pixels) ∧
    ((pixelsLoop ss v).Pixels = v.Pixels ∨
      ∃ s ∈ ss, s.CodecType = "video" ∧
        (pixelsLoop ss v).Pixels = wrapInt64 (s.Width * s.Height)) := by
  induction ss generalizing v with
  | nil => simp [pixelsLoop]
  | cons s rest ih =>
    by_cases hv : s.CodecType = "video"
    · rw [pixelsLoop_cons_video rest v hv]
      by_cases hgt : wrapInt64 (s.Width * s.Height) > v.Pixels
      · rw [if_pos hgt]
        obtain ⟨h1, h2, h3⟩ := ih { v with Pixels := wrapInt64 (s.Width * s.Height) }
        simp only at h1 h3
        refine ⟨by omega, ?_, ?_⟩
        · intro x hx hxv
          rcases List.mem_cons.mp hx with rfl | hx
          · exact h1
          · exact h2 x hx hxv
        · right
          rcases h3 with h3 | ⟨x, hx, hxv, h3⟩
          · exact ⟨s, List.mem_cons_self _ _, hv, h3⟩
          · exact ⟨x, List.mem_cons_of_mem _ hx, hxv, h3⟩
      · rw [if_neg hgt]
        obtain ⟨h1, h2, h3⟩ := ih v
        refine ⟨h1, ?_, ?_⟩
        · intro x hx hxv
          rcases List.mem_cons.mp hx with rfl | hx
          · omega
          · exact h2 x hx hxv
        · rcases h3 with h3 | ⟨x, hx, hxv, h3⟩
          · exact Or.inl h3
          · exact Or.inr ⟨x, List.mem_cons_of_mem _ hx, hxv, h3⟩
    · rw [pixelsLoop_cons_other rest v hv]
      obtain ⟨h1, h2, h3⟩ := ih v
      refine ⟨h1, ?_, ?_⟩
      · intro x hx hxv
        rcases List.mem_cons.mp hx with rfl | hx
        · exact absurd hxv hv
        · exact h2 x hx hxv
      · rcases h3 with h3 | ⟨x, hx, hxv, h3⟩
        · exact Or.inl h3
        · exact Or.inr ⟨x, List.mem_cons_of_mem _ hx, hxv, h3⟩

/-- The loop of `calculatePixels` reads the streams only through the video ones,
and reads nothing of the record but `Pixels`. -/
theorem pixelsLoop_filter (keep : Stream → Bool) (hkeep : ∀ s, s.CodecType = "video" → keep s = true)
    (ss : List Stream) (v w : VideoInfo) (hp : v.Pixels = w.Pixels) :
    (pixelsLoop (ss.filter keep) v).Pixels = (pixelsLoop ss w).Pixels := by
  induction ss generalizing v w with
  | nil => simpa [pixelsLoop] using hp
  | cons s rest ih =>
    by_cases hv : s.CodecType = "video"
    · rw [List.filter_cons, hkeep s hv, if_pos rfl, pixelsLoop_cons_video _ v hv,
        pixelsLoop_cons_video _ w hv, hp]
      split_ifs
      · exact ih _ _ rfl
      · exact ih _ _ hp
    · rw [pixelsLoop_cons_other rest w hv, List.filter_cons]
      cases hk : keep s with
      | true =>
        rw [if_pos rfl, pixelsLoop_cons_other _ v hv]
        exact ih _ _ hp
      | false =>
        simp only [Bool.false_eq_true, if_false]
        exact ih _ _ hp

theorem wrapInt64_of_fits {x : Int} (h1 : -2 ^ 63 ≤ x) (h2 : x < 2 ^ 63) : wrapInt64 x = x := by
  unfold wrapInt64
  have e63 : (2:Int) ^ 63 = 9223372036854775808 := by norm_num
  have e64 : (2:Int) ^ 64 = 18446744073709551616 := by norm_num
  rw [e63] at h1 h2
  rw [e63, e64]
  omega



/-! ## `strings.Join` and `fmt.Sprintf` -/

theorem intercalate_go_append (sep : String) (l : List String) (acc a : String) :
    String.intercalate.go (acc ++ a) sep l = acc ++ String.intercalate.go a sep l := by
  induction l generalizing a with
  | nil => simp [String.intercalate.go]
  | cons b l ih =>
    simp only [String.intercalate.go]
    rw [← ih (a ++ sep ++ b)]
    simp only [String.append_assoc]

/-- `Join` is the interleaving of the elements with the separator. -/
theorem Join_eq_intercalate (l : List String) (sep : String) :
    Join l sep = sep.intercalate l := by
  induction l with
  | nil => rfl
  | cons a l ih =>
    cases l with
    | nil => rfl
    | cons b rest =>
      simp only [Join, ih, String.intercalate]
      rw [String.intercalate.go, ← intercalate_go_append, String.append_assoc]

theorem Sprintf_description (a c : String) (b d : Nat) :
    Sprintf "%s@%d/%s@%d" [.str a, .uint b, .str c, .uint d] =
      a ++ "@" ++ Nat.repr b ++ "/" ++ c ++ "@" ++ Nat.repr d := by
  have h : Sprintf "%s@%d/%s@%d" [.str a, .uint b, .str c, .uint d] =
      a ++ ("@" ++ (Nat.repr b ++ ("/" ++ (c ++ ("@" ++ (Nat.repr d ++ "")))))) := rfl
  rw [h]
  simp only [String.append_assoc, String.append_empty]

/-! ## `calculateSimpleDescription`, `calculateDuration`, `NewVideoInfo` -/

theorem calculateSimpleDescription_ok {v v' : VideoInfo}
    (h : calculateSimpleDescription v = .ok v') :
    ∃ a b, sum v.AudioBitrates = .ok a ∧ sum v.VideoBitrates = .ok b ∧
      v' = { v with
        VideoFormat := Join v.VideoFormats "+"
        AudioFormat := Join v.AudioFormats "+"
        AudioBitrate := a
        VideoBitrate := b
        SimpleDescription :=
          Sprintf "%s@%d/%s@%d"
            [.str (Join v.VideoFormats "+"), .uint b, .str (Join v.AudioFormats "+"), .uint a] } := by
  unfold calculateSimpleDescription at h
  simp only at h
  cases ha : sum v.AudioBitrates with
  | error e => rw [ha] at h; cases h
  | ok a =>
    rw [ha] at h
    simp only at h
    cases hb : sum v.VideoBitrates with
    | error e => rw [hb] at h; cases h
    | ok b =>
      rw [hb] at h
      simp only [Except.ok.injEq] at h
      exact ⟨a, b, rfl, rfl, h.symm⟩

theorem calculateDuration_ok {Float64 : Type} {env : Env Float64} {v v' : VideoInfo}
    (h : calculateDuration env v = .ok v') :
    ∃ f, env.ParseFloat v.ProbeResult.Format.Duration = .ok f ∧
      v' = { v with Duration := env.ceilToInt f } := by
  unfold calculateDuration at h
  cases hf : env.ParseFloat v.ProbeResult.Format.Duration with
  | error e => rw [hf] at h; cases h
  | ok f =>
    rw [hf] at h
    simp only [Except.ok.injEq] at h
    exact ⟨f, rfl, h.symm⟩

/-- A successful construction, step by step. -/
theorem NewVideoInfo_ok {Float64 : Type} {env : Env Float64} {filename : String} {v : VideoInfo}
    (h : (NewVideoInfo env filename).2 = .ok v) :
    ∃ data vd vs, env.callffprobe filename = .ok data ∧
      calculateDuration env
        { Filename := filename, Basename := env.Base filename, ProbeResult := data,
          AtTime := env.unixNow [.ffprobe filename] } = .ok vd ∧
      calculateStreamInfo vd = .ok vs ∧
      calculateSimpleDescription (calculatePixels vs) = .ok v := by
  unfold NewVideoInfo at h
  simp only at h
  cases hc : env.callffprobe filename with
  | error e => rw [hc] at h; cases h
  | ok data =>
    rw [hc] at h
    simp only at h
    cases hd : calculateDuration env
        { Filename := filename, Basename := env.Base filename, ProbeResult := data,
          AtTime := env.unixNow [.ffprobe filename] } with
    | error e => rw [hd] at h; cases h
    | ok vd =>
      rw [hd] at h
      simp only at h
      cases hs : calculateStreamInfo vd with
      | error e => rw [hs] at h; cases h
      | ok vs =>
        rw [hs] at h
        exact ⟨data, vd, vs, rfl, hd, hs, h⟩

/-- On a successful construction the four sequences are those of the video and
audio streams of the probe result, and the probe result is the one ffprobe
returned. -/
theorem NewVideoInfo_sequences {Float64 : Type} {env : Env Float64} {filename : String}
    {v : VideoInfo}
    (h : (NewVideoInfo env filename).2 = .ok v) :
    env.callffprobe filename = .ok v.ProbeResult ∧
    v.VideoFormats = (v.ProbeResult.Streams.filter isVideo).map (fun s => s.CodecName) ∧
    v.VideoBitrates = (v.ProbeResult.Streams.filter isVideo).map (fun s => decimalValue s.BitRate) ∧
    v.AudioFormats = (v.ProbeResult.Streams.filter isAudio).map (fun s => s.CodecName) ∧
    v.AudioBitrates = (v.ProbeResult.Streams.filter isAudio).map (fun s => decimalValue s.BitRate) := by
  obtain ⟨data, vd, vs, hc, hd, hs, hv⟩ := NewVideoInfo_ok h
  obtain ⟨f, _, rfl⟩ := calculateDuration_ok hd
  obtain ⟨w, hw, rfl⟩ := calculateStreamInfo_ok hs
  obtain ⟨a, b, _, _, rfl⟩ := calculateSimpleDescription_ok hv
  have hl := streamInfoLoop_lists _ _ _ hw
  have hf := streamInfoLoop_frame _ _ _ hw
  have hp : w.ProbeResult = data := by rw [hf]
  simp only [List.nil_append] at hl hw
  have hpx := pixelsLoop_frame w.ProbeResult.Streams
    { w with
      HasMultipleAudio := decide (w.AudioBitrates.length > 1)
      HasMultipleVideo := decide (w.VideoBitrates.length > 1) }
  unfold calculatePixels
  simp only at hpx ⊢
  rw [hpx]
  simp only
  rw [hp]
  exact ⟨hc, hl⟩



/-! ## Streams that are neither video nor audio -/

theorem not_selected_iff (s : Stream) :
    isSelected s = false ↔ ¬ s.CodecType = "video" ∧ ¬ s.CodecType = "audio" := by
  simp [isSelected, isVideo, isAudio]

theorem streamInfoLoop_setProbe (p : ProbeResult) (ss : List Stream) (v : VideoInfo) :
    streamInfoLoop ss (setProbe p v) = Except.map (setProbe p) (streamInfoLoop ss v) := by
  induction ss generalizing v with
  | nil => rfl
  | cons s rest ih =>
    by_cases hv : s.CodecType = "video"
    · rw [streamInfoLoop_cons_video rest _ hv, streamInfoLoop_cons_video rest _ hv]
      cases hp : ParseUint s.BitRate with
      | error e => rfl
      | ok b =>
        exact ih { v with
          Bitrate := addU64 v.Bitrate b
          VideoBitrates := v.VideoBitrates ++ [b]
          VideoFormats := v.VideoFormats ++ [s.CodecName] }
    · by_cases ha : s.CodecType = "audio"
      · rw [streamInfoLoop_cons_audio rest _ ha, streamInfoLoop_cons_audio rest _ ha]
        cases hp : ParseUint s.BitRate with
        | error e => rfl
        | ok b =>
          exact ih { v with
            Bitrate := addU64 v.Bitrate b
            AudioBitrates := v.AudioBitrates ++ [b]
            AudioFormats := v.AudioFormats ++ [s.CodecName] }
      · rw [streamInfoLoop_cons_other rest _ hv ha, streamInfoLoop_cons_other rest _ hv ha]
        exact ih _

theorem streamInfoLoop_filter (ss : List Stream) (v : VideoInfo) :
    streamInfoLoop (ss.filter isSelected) v = streamInfoLoop ss v := by
  induction ss generalizing v with
  | nil => rfl
  | cons s rest ih =>
    by_cases hv : s.CodecType = "video"
    · have fs : isSelected s = true := by simp [isSelected, isVideo, hv]
      rw [List.filter_cons, fs, if_pos rfl, streamInfoLoop_cons_video _ _ hv,
        streamInfoLoop_cons_video _ _ hv]
      cases hp : ParseUint s.BitRate with
      | error e => rfl
      | ok b => exact ih _
    · by_cases ha : s.CodecType = "audio"
      · have fs : isSelected s = true := by simp [isSelected, isAudio, ha]
        rw [List.filter_cons, fs, if_pos rfl, streamInfoLoop_cons_audio _ _ ha,
          streamInfoLoop_cons_audio _ _ ha]
        cases hp : ParseUint s.BitRate with
        | error e => rfl
        | ok b => exact ih _
      · have fs : isSelected s = false := (not_selected_iff s).mpr ⟨hv, ha⟩
        rw [List.filter_cons, fs, streamInfoLoop_cons_other _ _ hv ha]
        simp only [Bool.false_eq_true, if_false]
        exact ih _

theorem calculateStreamInfo_setProbe (p : ProbeResult) (v : VideoInfo)
    (hS : p.Streams = v.ProbeResult.Streams.filter isSelected) :
    calculateStreamInfo (setProbe p v) = Except.map (setProbe p) (calculateStreamInfo v) := by
  unfold calculateStreamInfo
  have h1 : (setProbe p v).ProbeResult.Streams = v.ProbeResult.Streams.filter isSelected := hS
  rw [h1, streamInfoLoop_setProbe, streamInfoLoop_filter]
  cases streamInfoLoop v.ProbeResult.Streams v with
  | error e => rfl
  | ok w => rfl

theorem pixelsLoop_setProbe (p : ProbeResult) (ss : List Stream) (v : VideoInfo) :
    pixelsLoop ss (setProbe p v) = setProbe p (pixelsLoop ss v) := by
  induction ss generalizing v with
  | nil => rfl
  | cons s rest ih =>
    by_cases hv : s.CodecType = "video"
    · rw [pixelsLoop_cons_video rest _ hv, pixelsLoop_cons_video rest _ hv]
      have hpix : (setProbe p v).Pixels = v.Pixels := rfl
      rw [hpix]
      split_ifs
      · exact ih { v with Pixels := wrapInt64 (s.Width * s.Height) }
      · exact ih v
    · rw [pixelsLoop_cons_other rest _ hv, pixelsLoop_cons_other rest _ hv]
      exact ih _

theorem pixelsLoop_filter_selected (ss : List Stream) (v : VideoInfo) :
    pixelsLoop (ss.filter isSelected) v = pixelsLoop ss v := by
  rw [pixelsLoop_frame (ss.filter isSelected) v, pixelsLoop_frame ss v,
    pixelsLoop_filter isSelected (fun s hs => by simp [isSelected, isVideo, hs]) ss v v rfl]

theorem calculatePixels_setProbe (p : ProbeResult) (v : VideoInfo)
    (hS : p.Streams = v.ProbeResult.Streams.filter isSelected) :
    calculatePixels (setProbe p v) = setProbe p (calculatePixels v) := by
  unfold calculatePixels
  have h1 : (setProbe p v).ProbeResult.Streams = v.ProbeResult.Streams.filter isSelected := hS
  rw [h1, pixelsLoop_setProbe, pixelsLoop_filter_selected]

theorem calculateSimpleDescription_setProbe (p : ProbeResult) (v : VideoInfo) :
    calculateSimpleDescription (setProbe p v) =
      Except.map (setProbe p) (calculateSimpleDescription v) := by
  unfold calculateSimpleDescription
  simp only [setProbe]
  cases sum v.AudioBitrates with
  | error e => rfl
  | ok a =>
    simp only
    cases sum v.VideoBitrates with
    | error e => rfl
    | ok b => rfl

theorem calculateDuration_setProbe {Float64 : Type} (env : Env Float64) (p : ProbeResult)
    (v : VideoInfo)
    (hF : p.Format = v.ProbeResult.Format) :
    calculateDuration env (setProbe p v) = Except.map (setProbe p) (calculateDuration env v) := by
  unfold calculateDuration
  have h1 : (setProbe p v).ProbeResult.Format = v.ProbeResult.Format := hF
  rw [h1]
  cases env.ParseFloat v.ProbeResult.Format.Duration with
  | error e => rfl
  | ok f => rfl

theorem calculateStreamInfo_probe {v v' : VideoInfo} (h : calculateStreamInfo v = .ok v') :
    v'.ProbeResult = v.ProbeResult := by
  obtain ⟨w, hw, rfl⟩ := calculateStreamInfo_ok h
  have hf := streamInfoLoop_frame _ _ _ hw
  rw [hf]



theorem calculateDuration_dropOtherEnv {Float64 : Type} (env : Env Float64) (v : VideoInfo) :
    calculateDuration (dropOtherEnv env) v = calculateDuration env v := rfl

theorem calculateSimpleDescription_probe {v v' : VideoInfo}
    (h : calculateSimpleDescription v = .ok v') : v'.ProbeResult = v.ProbeResult := by
  obtain ⟨a, b, _, _, rfl⟩ := calculateSimpleDescription_ok h
  rfl

theorem calculatePixels_probe (v : VideoInfo) : (calculatePixels v).ProbeResult = v.ProbeResult := by
  unfold calculatePixels
  rw [pixelsLoop_frame]

/-- The steps of the constructor after the probe, on a record whose probe result
lost its other streams. -/
theorem steps_dropOther {Float64 : Type} (env : Env Float64) (v0 : VideoInfo) :
    (match calculateDuration env (setProbe (dropOther v0.ProbeResult) v0) with
      | .error e => .error e
      | .ok v =>
        match calculateStreamInfo v with
        | .error e => .error e
        | .ok v => calculateSimpleDescription (calculatePixels v)) =
    Except.map (fun v => setProbe (dropOther v.ProbeResult) v)
      (match calculateDuration env v0 with
      | .error e => .error e
      | .ok v =>
        match calculateStreamInfo v with
        | .error e => .error e
        | .ok v => calculateSimpleDescription (calculatePixels v)) := by
  rw [calculateDuration_setProbe env (dropOther v0.ProbeResult) v0 rfl]
  cases hd : calculateDuration env v0 with
  | error e => rfl
  | ok vd =>
    obtain ⟨f, _, hvd⟩ := calculateDuration_ok hd
    have pd : vd.ProbeResult = v0.ProbeResult := by rw [hvd]
    simp only [Except.map]
    rw [calculateStreamInfo_setProbe (dropOther v0.ProbeResult) vd (by rw [pd]; rfl)]
    cases hs : calculateStreamInfo vd with
    | error e => rfl
    | ok vs =>
      have ps : vs.ProbeResult = v0.ProbeResult := (calculateStreamInfo_probe hs).trans pd
      simp only [Except.map]
      rw [calculatePixels_setProbe (dropOther v0.ProbeResult) vs (by rw [ps]; rfl),
        calculateSimpleDescription_setProbe]
      cases hf : calculateSimpleDescription (calculatePixels vs) with
      | error e => rfl
      | ok v =>
        have pv : v.ProbeResult = v0.ProbeResult :=
          ((calculateSimpleDescription_probe hf).trans (calculatePixels_probe vs)).trans ps
        simp only [Except.map, pv]



/-! ## Decimal rendering -/

theorem digitChar_toNat (k : Nat) (h : k < 10) : (Nat.digitChar k).toNat = 48 + k := by
  interval_cases k <;> rfl

theorem toDigitsCore_value (fuel : Nat) (n : Nat) (ds : List Char) (h : n < fuel) :
    decimalValueFrom 0 (Nat.toDigitsCore 10 fuel n ds) = decimalValueFrom n ds := by
  induction fuel generalizing n ds with
  | zero => omega
  | succ fuel ih =>
    have hd : (Nat.digitChar (n % 10)).toNat - 48 = n % 10 := by
      rw [digitChar_toNat _ (Nat.mod_lt _ (by norm_num))]; omega
    simp only [Nat.toDigitsCore]
    by_cases h0 : n / 10 = 0
    · rw [if_pos h0]
      simp only [decimalValueFrom, List.foldl_cons, hd]
      have : 10 * 0 + n % 10 = n := by omega
      rw [this]
    · rw [if_neg h0, ih (n / 10) _ (by omega)]
      simp only [decimalValueFrom, List.foldl_cons, hd]
      have : 10 * (n / 10) + n % 10 = n := by omega
      rw [this]

theorem toDigitsCore_digits (fuel : Nat) (n : Nat) (ds : List Char)
    (hds : ∀ c ∈ ds, isDecDigit c) : ∀ c ∈ Nat.toDigitsCore 10 fuel n ds, isDecDigit c := by
  induction fuel generalizing n ds with
  | zero => simpa [Nat.toDigitsCore] using hds
  | succ fuel ih =>
    have hd : isDecDigit (Nat.digitChar (n % 10)) := by
      unfold isDecDigit
      rw [digitChar_toNat _ (Nat.mod_lt _ (by norm_num))]
      have := Nat.mod_lt n (show 0 < 10 by norm_num)
      omega
    have hcons : ∀ c ∈ Nat.digitChar (n % 10) :: ds, isDecDigit c := by
      intro c hc
      rcases List.mem_cons.mp hc with rfl | hc
      · exact hd
      · exact hds c hc
    simp only [Nat.toDigitsCore]
    by_cases h0 : n / 10 = 0
    · rw [if_pos h0]; exact hcons
    · rw [if_neg h0]; exact ih _ _ hcons

/-- `Nat.repr n`, the text `%d` writes, is a run of decimal digits that denotes
`n`. -/
theorem repr_is_decimal (n : Nat) :
    (∀ c ∈ (Nat.repr n).toList, isDecDigit c) ∧ decimalValue (Nat.repr n) = n := by
  have hl : (Nat.repr n).toList = Nat.toDigitsCore 10 (n + 1) n [] := rfl
  refine ⟨?_, ?_⟩
  · rw [hl]
    exact toDigitsCore_digits _ _ _ (fun _ h => absurd h (List.not_mem_nil _))
  · unfold decimalValue
    rw [hl, toDigitsCore_value _ _ _ (by omega)]
    rfl


/-! ## `sum` on values within the signed range -/

theorem MaxInt_eq : MaxInt = 9223372036854775807 := by
  norm_num [MaxInt]

theorem twoPow64_eq : twoPow64 = 18446744073709551616 := by
  norm_num [twoPow64]

/-- On an accumulator and elements no larger than `MaxInt`, the loop of `sum`
panics exactly when the exact total exceeds `MaxInt`, and otherwise returns it. -/
theorem sumLoop_of_le (l : List Nat) (r : Nat) (hr : r ≤ MaxInt) (hl : ∀ n ∈ l, n ≤ MaxInt) :
    sumLoop l r =
      if r + l.sum ≤ MaxInt then .ok (r + l.sum)
      else .error (.message "Overflow while summing") := by
  induction l generalizing r with
  | nil => simp [sumLoop, hr]
  | cons n l ih =>
    have hn : n ≤ MaxInt := hl n (List.mem_cons_self _ _)
    have hl' : ∀ m ∈ l, m ≤ MaxInt := fun m hm => hl m (List.mem_cons_of_mem _ hm)
    have hsub : subU64 MaxInt n = MaxInt - n := by
      unfold subU64
      rw [MaxInt_eq, twoPow64_eq] at *
      omega
    simp only [sumLoop, hsub, List.sum_cons]
    by_cases hg : MaxInt - n < r
    · rw [if_pos hg, if_neg (by omega)]
    · rw [if_neg hg]
      have hadd : addU64 r n = r + n := by
        unfold addU64
        rw [MaxInt_eq, twoPow64_eq] at *
        omega
      rw [hadd, ih (r + n) (by omega) hl', Nat.add_assoc]

/-! ## The running total of `calculateStreamInfo` -/

/-- The running total after the loop is the starting total plus the bit rates of
the selected streams, modulo `2^64`. -/
theorem streamInfoLoop_bitrate (ss : List Stream) (v v' : VideoInfo)
    (h0 : v.Bitrate < 18446744073709551616) (h : streamInfoLoop ss v = .ok v') :
    v'.Bitrate =
      (v.Bitrate + ((ss.filter isSelected).map (fun s => decimalValue s.BitRate)).sum) %
        18446744073709551616 := by
  induction ss generalizing v with
  | nil =>
    simp only [streamInfoLoop, Except.ok.injEq] at h
    subst h
    simp only [List.filter_nil, List.map_nil, List.sum_nil, Nat.add_zero]
    exact (Nat.mod_eq_of_lt h0).symm
  | cons s rest ih =>
    by_cases hv : s.CodecType = "video"
    · rw [streamInfoLoop_cons_video rest v hv] at h
      cases hp : ParseUint s.BitRate with
      | error e => rw [hp] at h; cases h
      | ok b =>
        rw [hp] at h
        have hb : decimalValue s.BitRate = b := ((ParseUint_ok_iff _ _).mp hp).2
        have fs : isSelected s = true := by simp [isSelected, isVideo, hv]
        have := ih _ (by simp only [addU64, twoPow64_eq]; exact Nat.mod_lt _ (by norm_num)) h
        simp only [addU64, twoPow64_eq] at this
        simp only [List.filter_cons, fs, if_true, List.map_cons, List.sum_cons, hb]
        omega
    · by_cases ha : s.CodecType = "audio"
      · rw [streamInfoLoop_cons_audio rest v ha] at h
        cases hp : ParseUint s.BitRate with
        | error e => rw [hp] at h; cases h
        | ok b =>
          rw [hp] at h
          have hb : decimalValue s.BitRate = b := ((ParseUint_ok_iff _ _).mp hp).2
          have fs : isSelected s = true := by simp [isSelected, isAudio, ha]
          have := ih _ (by simp only [addU64, twoPow64_eq]; exact Nat.mod_lt _ (by norm_num)) h
          simp only [addU64, twoPow64_eq] at this
          simp only [List.filter_cons, fs, if_true, List.map_cons, List.sum_cons, hb]
          omega
      · rw [streamInfoLoop_cons_other rest v hv ha] at h
        have fs : isSelected s = false := (not_selected_iff s).mpr ⟨hv, ha⟩
        simp only [List.filter_cons, fs, Bool.false_eq_true, if_false]
        exact ih _ h0 h

theorem sum_selected_split (f : Stream → Nat) (ss : List Stream) :
    ((ss.filter isSelected).map f).sum =
      ((ss.filter isVideo).map f).sum + ((ss.filter isAudio).map f).sum := by
  induction ss with
  | nil => rfl
  | cons s rest ih =>
    by_cases hv : s.CodecType = "video"
    · have fs : isSelected s = true := by simp [isSelected, isVideo, hv]
      have fv : isVideo s = true := by simp [isVideo, hv]
      have fa : isAudio s = false := isAudio_of_isVideo hv
      simp only [List.filter_cons, fs, fv, fa, if_true, Bool.false_eq_true, if_false,
        List.map_cons, List.sum_cons, ih]
      omega
    · by_cases ha : s.CodecType = "audio"
      · have fs : isSelected s = true := by simp [isSelected, isAudio, ha]
        have fv : isVideo s = false := by simp [isVideo, hv]
        have fa : isAudio s = true := by simp [isAudio, ha]
        simp only [List.filter_cons, fs, fv, fa, if_true, Bool.false_eq_true, if_false,
          List.map_cons, List.sum_cons, ih]
        omega
      · have fs : isSelected s = false := (not_selected_iff s).mpr ⟨hv, ha⟩
        have fv : isVideo s = false := by simp [isVideo, hv]
        have fa : isAudio s = false := by simp [isAudio, ha]
        simp only [List.filter_cons, fs, fv, fa, Bool.false_eq_true, if_false, ih]


/-! ## The remaining fields of a constructed record -/

/-- On a successful construction: the duration is the ceiling of the parsed
float, the time stamp is the clock after the probe, the flags compare the
lengths of the bit rate sequences with one, `pixels` is not negative, the
running total is the total of the selected bit rates modulo `2^64`, and the two
per-type totals are what `sum` returns. -/
theorem NewVideoInfo_fields {Float64 : Type} {env : Env Float64} {filename : String}
    {v : VideoInfo} (h : (NewVideoInfo env filename).2 = .ok v) :
    (∃ f, env.ParseFloat v.ProbeResult.Format.Duration = .ok f ∧
      v.Duration = env.ceilToInt f) ∧
    v.AtTime = env.unixNow [.ffprobe filename] ∧
    v.HasMultipleAudio = decide (v.AudioBitrates.length > 1) ∧
    v.HasMultipleVideo = decide (v.VideoBitrates.length > 1) ∧
    0 ≤ v.Pixels ∧
    v.Bitrate =
      ((v.ProbeResult.Streams.filter isSelected).map (fun s => decimalValue s.BitRate)).sum %
        18446744073709551616 ∧
    sum v.AudioBitrates = .ok v.AudioBitrate ∧
    sum v.VideoBitrates = .ok v.VideoBitrate := by
  obtain ⟨data, vd, vs, hc, hd, hs, hv⟩ := NewVideoInfo_ok h
  obtain ⟨f, hf, rfl⟩ := calculateDuration_ok hd
  obtain ⟨w, hw, rfl⟩ := calculateStreamInfo_ok hs
  obtain ⟨a, b, ha, hb, rfl⟩ := calculateSimpleDescription_ok hv
  have hfr := streamInfoLoop_frame _ _ _ hw
  have hbit := streamInfoLoop_bitrate _ _ _ (by norm_num) hw
  have hp : w.ProbeResult = data := by rw [hfr]
  have hpix0 : w.Pixels = 0 := by rw [hfr]
  have hdur : w.Duration = env.ceilToInt f := by rw [hfr]
  have hat : w.AtTime = env.unixNow [.ffprobe filename] := by rw [hfr]
  have hpx := pixelsLoop_frame w.ProbeResult.Streams
    { w with
      HasMultipleAudio := decide (w.AudioBitrates.length > 1)
      HasMultipleVideo := decide (w.VideoBitrates.length > 1) }
  have hmax := (pixelsLoop_max w.ProbeResult.Streams
    { w with
      HasMultipleAudio := decide (w.AudioBitrates.length > 1)
      HasMultipleVideo := decide (w.VideoBitrates.length > 1) }).1
  unfold calculatePixels at ha hb ⊢
  simp only at hpx hmax hf hbit ha hb ⊢
  rw [hpx] at ha hb ⊢
  simp only at ha hb ⊢
  simp only [hp, Nat.zero_add] at hbit hmax ⊢
  exact ⟨⟨f, hf, hdur⟩, hat, trivial, trivial, le_trans (le_of_eq hpix0.symm) hmax, hbit,
    ha, hb⟩


/-! ## The claims -/

/-- C1: when `calculateStreamInfo` succeeds on a record whose four sequences are
still empty, `video_formats` is the list of `codec_name` of the streams with
`codec_type` "video", in stream order, `video_bitrates` is the list of the numbers
their `bit_rate` strings denote, in the same order, and likewise for
`audio_formats` and `audio_bitrates` with `codec_type` "audio". -/
theorem calculateStreamInfo_sequences (v v' : VideoInfo)
    (hfresh : v.VideoFormats = [] ∧ v.VideoBitrates = [] ∧
      v.AudioFormats = [] ∧ v.AudioBitrates = [])
    (h : calculateStreamInfo v = .ok v') :
    v'.VideoFormats =
      (v.ProbeResult.Streams.filter (fun s => s.CodecType = "video")).map (fun s => s.CodecName) ∧
    v'.VideoBitrates =
      (v.ProbeResult.Streams.filter (fun s => s.CodecType = "video")).map
        (fun s => decimalValue s.BitRate) ∧
    v'.AudioFormats =
      (v.ProbeResult.Streams.filter (fun s => s.CodecType = "audio")).map (fun s => s.CodecName) ∧
    v'.AudioBitrates =
      (v.ProbeResult.Streams.filter (fun s => s.CodecType = "audio")).map
        (fun s => decimalValue s.BitRate) := by
  obtain ⟨w, hw, rfl⟩ := calculateStreamInfo_ok h
  obtain ⟨h1, h2, h3, h4⟩ := hfresh
  have hl := streamInfoLoop_lists _ _ _ hw
  rw [h1, h2, h3, h4] at hl
  simpa only [List.nil_append] using hl

/-- C1 at `mixedStreams`: the two video and the two audio streams are listed in
stream order, and the subtitle and data streams are not. -/
theorem calculateStreamInfo_sequences_witness :
    ∃ v', calculateStreamInfo { ProbeResult := mixedStreams } = .ok v' ∧
      v'.VideoFormats = ["h264", "av1"] ∧ v'.VideoBitrates = [5000000, 2800000] ∧
      v'.AudioFormats = ["aac", "opus"] ∧ v'.AudioBitrates = [48000, 16000] :=
  ⟨_, rfl, calculateStreamInfo_sequences { ProbeResult := mixedStreams } _ ⟨rfl, rfl, rfl, rfl⟩ rfl⟩

/-- C2 (the code at the failing inputs): `sum` returns without panic on `[2^63]`
and on `[1, 2^63]`, whose exact totals exceed `2^63 - 1`, although it panics on
`[2^63, 1]`; on `[2^63, 2^63]` it returns the wrapped total 0; and the
construction succeeds on two video streams with bit rates `1` and `2^63`. -/
theorem sum_misses_overflow :
    sum [9223372036854775808] = .ok 9223372036854775808 ∧
    sum [1, 9223372036854775808] = .ok 9223372036854775809 ∧
    sum [9223372036854775808, 1] = .error (.message "Overflow while summing") ∧
    sum [9223372036854775808, 9223372036854775808] = .ok 0 ∧
    ∃ v, (NewVideoInfo (fixedEnv oneAndHugeVideo) "movie.mp4").2 = .ok v ∧
      v.VideoBitrates = [1, 9223372036854775808] :=
  ⟨rfl, rfl, rfl, rfl, _, rfl, rfl⟩

/-- C3 (the code at the failing input): on two video streams with bit rate `2^63`
each the construction succeeds with `video_bitrate = 0`, while the entries of
`video_bitrates` add up to `2^64`. -/
theorem NewVideoInfo_video_bitrate_wraps :
    ∃ v, (NewVideoInfo (fixedEnv twoHugeVideo) "movie.mp4").2 = .ok v ∧
      v.VideoBitrates = [9223372036854775808, 9223372036854775808] ∧
      v.VideoBitrate = 0 ∧ v.VideoBitrates.sum = 18446744073709551616 :=
  ⟨_, rfl, rfl, rfl, rfl⟩

/-- C4 (the code at the failing input): on one video and one audio stream with
bit rate `2^63` each the construction succeeds with `bitrate = 0`, while
`video_bitrate` and `audio_bitrate` are `2^63` each. -/
theorem NewVideoInfo_bitrate_wraps :
    ∃ v, (NewVideoInfo (fixedEnv hugeVideoHugeAudio) "movie.mp4").2 = .ok v ∧
      v.VideoBitrate = 9223372036854775808 ∧ v.AudioBitrate = 9223372036854775808 ∧
      v.Bitrate = 0 :=
  ⟨_, rfl, rfl, rfl, rfl⟩

/-- C5 as stated fails: on one video stream of 4294967296 by 4294967296 pixels
`calculatePixels` leaves `pixels = 0`, below the exact product `2^64`. -/
theorem calculatePixels_wraps :
    (calculatePixels { ProbeResult := hugeFrame }).Pixels = 0 ∧
    ∃ s ∈ hugeFrame.Streams, s.CodecType = "video" ∧
      (calculatePixels { ProbeResult := hugeFrame }).Pixels < s.Width * s.Height :=
  ⟨rfl, _, List.mem_cons_self _ _, rfl, by decide⟩

/-- C5 amended: when the exact product `width * height` of every video stream
lies in the signed 64-bit range, `calculatePixels` on a record with `pixels = 0`
sets `pixels` to the maximum of 0 and these products: it is at least 0 and at
least every such product, and it is 0 or one of them; it is 0 when there is no
video stream, and deleting the streams of other types does not change it. -/
theorem calculatePixels_max (v : VideoInfo) (h0 : v.Pixels = 0)
    (hfit : ∀ s ∈ v.ProbeResult.Streams, s.CodecType = "video" →
      -2 ^ 63 ≤ s.Width * s.Height ∧ s.Width * s.Height < 2 ^ 63) :
    0 ≤ (calculatePixels v).Pixels ∧
    (∀ s ∈ v.ProbeResult.Streams, s.CodecType = "video" →
      s.Width * s.Height ≤ (calculatePixels v).Pixels) ∧
    ((calculatePixels v).Pixels = 0 ∨
      ∃ s ∈ v.ProbeResult.Streams, s.CodecType = "video" ∧
        (calculatePixels v).Pixels = s.Width * s.Height) ∧
    ((∀ s ∈ v.ProbeResult.Streams, s.CodecType ≠ "video") → (calculatePixels v).Pixels = 0) ∧
    (calculatePixels
      (setProbe { v.ProbeResult with
        Streams := v.ProbeResult.Streams.filter (fun s => s.CodecType = "video") } v)).Pixels =
      (calculatePixels v).Pixels := by
  obtain ⟨h1, h2, h3⟩ := pixelsLoop_max v.ProbeResult.Streams v
  rw [h0] at h1 h3
  have hmax : (calculatePixels v).Pixels = 0 ∨
      ∃ s ∈ v.ProbeResult.Streams, s.CodecType = "video" ∧
        (calculatePixels v).Pixels = s.Width * s.Height := by
    rcases h3 with h3 | ⟨s, hs, hsv, h3⟩
    · exact Or.inl h3
    · refine Or.inr ⟨s, hs, hsv, ?_⟩
      rw [← wrapInt64_of_fits (hfit s hs hsv).1 (hfit s hs hsv).2]
      exact h3
  refine ⟨h1, ?_, hmax, ?_, ?_⟩
  · intro s hs hsv
    rw [← wrapInt64_of_fits (hfit s hs hsv).1 (hfit s hs hsv).2]
    exact h2 s hs hsv
  · intro hnone
    rcases hmax with h | ⟨s, hs, hsv, _⟩
    · exact h
    · exact absurd hsv (hnone s hs)
  · exact pixelsLoop_filter _ (fun s hs => by simp [hs]) v.ProbeResult.Streams _ v rfl

/-- C5 amended at `mixedStreams`: both video products fit, `pixels` is 2073600
(1920 by 1080), and no video product exceeds it. -/
theorem calculatePixels_max_witness :
    (∀ s ∈ mixedStreams.Streams, s.CodecType = "video" →
      -2 ^ 63 ≤ s.Width * s.Height ∧ s.Width * s.Height < 2 ^ 63) ∧
    (calculatePixels { ProbeResult := mixedStreams }).Pixels = 2073600 ∧
    (∀ s ∈ mixedStreams.Streams, s.CodecType = "video" → s.Width * s.Height ≤ 2073600) :=
  ⟨by decide, rfl,
    (calculatePixels_max { ProbeResult := mixedStreams } rfl (by decide)).2.1⟩


/-- C7: after `calculateSimpleDescription`, `simple_description` is the
concatenation of `video_format`, "@", the decimal rendering of `video_bitrate`,
"/", `audio_format`, "@" and the decimal rendering of `audio_bitrate`, where the
decimal rendering of a number is a run of decimal digits that denotes it. -/
theorem calculateSimpleDescription_format (v v' : VideoInfo)
    (h : calculateSimpleDescription v = .ok v') :
    v'.SimpleDescription =
      v'.VideoFormat ++ "@" ++ Nat.repr v'.VideoBitrate ++ "/" ++
        v'.AudioFormat ++ "@" ++ Nat.repr v'.AudioBitrate ∧
    ((∀ c ∈ (Nat.repr v'.VideoBitrate).toList, isDecDigit c) ∧
      decimalValue (Nat.repr v'.VideoBitrate) = v'.VideoBitrate) ∧
    ((∀ c ∈ (Nat.repr v'.AudioBitrate).toList, isDecDigit c) ∧
      decimalValue (Nat.repr v'.AudioBitrate) = v'.AudioBitrate) := by
  refine ⟨?_, repr_is_decimal _, repr_is_decimal _⟩
  obtain ⟨a, b, _, _, rfl⟩ := calculateSimpleDescription_ok h
  exact Sprintf_description _ _ _ _

/-- C7 at `audioOnlyInfo`: a single audio stream mp3 at 192000 and no video
stream give "@0/mp3@192000". -/
theorem calculateSimpleDescription_format_witness :
    ∃ v', calculateSimpleDescription audioOnlyInfo = .ok v' ∧
      v'.SimpleDescription = "@0/mp3@192000" :=
  ⟨_, rfl, (calculateSimpleDescription_format audioOnlyInfo _ rfl).1⟩

/-- C8: on a successful construction `video_format` is the codec names of the
video streams of the probe result, in stream order, with "+" between
neighbours, and the empty string when there is no video stream; `audio_format`
is the same over the audio streams. -/
theorem NewVideoInfo_formats_joined {Float64 : Type} (env : Env Float64) (filename : String)
    (data : ProbeResult) (v : VideoInfo)
    (hp : env.callffprobe filename = .ok data)
    (h : (NewVideoInfo env filename).2 = .ok v) :
    v.VideoFormat = "+".intercalate
      ((data.Streams.filter (fun s => s.CodecType = "video")).map (fun s => s.CodecName)) ∧
    v.AudioFormat = "+".intercalate
      ((data.Streams.filter (fun s => s.CodecType = "audio")).map (fun s => s.CodecName)) ∧
    ((∀ s ∈ data.Streams, s.CodecType ≠ "video") → v.VideoFormat = "") ∧
    ((∀ s ∈ data.Streams, s.CodecType ≠ "audio") → v.AudioFormat = "") := by
  obtain ⟨hc, hvf, _, haf, _⟩ := NewVideoInfo_sequences h
  have hdata : v.ProbeResult = data := by
    rw [hp] at hc
    exact (Except.ok.inj hc).symm
  obtain ⟨_, _, vs, _, _, _, hv⟩ := NewVideoInfo_ok h
  obtain ⟨a, b, _, _, hrec⟩ := calculateSimpleDescription_ok hv
  have e1 : v.VideoFormat = Join v.VideoFormats "+" := by rw [hrec]
  have e2 : v.AudioFormat = Join v.AudioFormats "+" := by rw [hrec]
  rw [hdata] at hvf haf
  have k1 : v.VideoFormat = "+".intercalate
      ((data.Streams.filter (fun s => s.CodecType = "video")).map (fun s => s.CodecName)) := by
    rw [e1, hvf, Join_eq_intercalate]; rfl
  have k2 : v.AudioFormat = "+".intercalate
      ((data.Streams.filter (fun s => s.CodecType = "audio")).map (fun s => s.CodecName)) := by
    rw [e2, haf, Join_eq_intercalate]; rfl
  refine ⟨k1, k2, ?_, ?_⟩
  · intro hnone
    have : data.Streams.filter (fun s => s.CodecType = "video") = [] := by
      rw [List.filter_eq_nil_iff]
      intro s hs
      simpa using hnone s hs
    rw [k1, this]; rfl
  · intro hnone
    have : data.Streams.filter (fun s => s.CodecType = "audio") = [] := by
      rw [List.filter_eq_nil_iff]
      intro s hs
      simpa using hnone s hs
    rw [k2, this]; rfl

/-- C8 at `mixedStreams`: the formats are "h264+av1" and "aac+opus". -/
theorem NewVideoInfo_formats_joined_witness :
    ∃ v, (fixedEnv mixedStreams).callffprobe "/a/b/movie.mp4" = .ok mixedStreams ∧
      (NewVideoInfo (fixedEnv mixedStreams) "/a/b/movie.mp4").2 = .ok v ∧
      v.VideoFormat = "h264+av1" ∧ v.AudioFormat = "aac+opus" :=
  ⟨_, rfl, rfl,
    (NewVideoInfo_formats_joined (fixedEnv mixedStreams) "/a/b/movie.mp4" mixedStreams _
      rfl rfl).1,
    (NewVideoInfo_formats_joined (fixedEnv mixedStreams) "/a/b/movie.mp4" mixedStreams _
      rfl rfl).2.1⟩

/-- C9: deleting from the probe result every stream that is neither video nor
audio changes nothing but the embedded probe result: the construction panics
with the same value or returns the same record, in which `video_formats`,
`audio_formats`, `video_bitrates`, `audio_bitrates`, `video_format`,
`audio_format`, `video_bitrate`, `audio_bitrate`, `bitrate`, `pixels`,
`has_multiple_video`, `has_multiple_audio` and `simple_description` (and every
other field but `probe_result`) are the same. -/
theorem NewVideoInfo_dropOther {Float64 : Type} (env : Env Float64) (filename : String) :
    (NewVideoInfo (dropOtherEnv env) filename).2 =
      Except.map (fun v => setProbe (dropOther v.ProbeResult) v)
        (NewVideoInfo env filename).2 := by
  unfold NewVideoInfo
  have hcall : (dropOtherEnv env).callffprobe filename =
      Except.map dropOther (env.callffprobe filename) := rfl
  simp only [hcall]
  cases hc : env.callffprobe filename with
  | error e => rfl
  | ok data =>
    simp only [Except.map]
    exact steps_dropOther env
      { Filename := filename, Basename := env.Base filename, ProbeResult := data,
        AtTime := env.unixNow [.ffprobe filename] }

/-- C10: `calculateStreamInfo` fails exactly when some stream whose `codec_type`
is "video" or "audio" has a `bit_rate` that is not a decimal unsigned 64-bit
integer; the `bit_rate` of a stream of any other type plays no part. -/
theorem calculateStreamInfo_fails_iff (v : VideoInfo) :
    (∃ e, calculateStreamInfo v = .error e) ↔
      ∃ s ∈ v.ProbeResult.Streams,
        (s.CodecType = "video" ∨ s.CodecType = "audio") ∧ ¬ IsDecimalUint64 s.BitRate := by
  rw [calculateStreamInfo_error_iff_loop, streamInfoLoop_error_iff]
  constructor
  · rintro ⟨s, hs, hsel, hbad⟩
    refine ⟨s, hs, ?_, hbad⟩
    simpa [isSelected, isVideo, isAudio] using hsel
  · rintro ⟨s, hs, hsel, hbad⟩
    refine ⟨s, hs, ?_, hbad⟩
    simpa [isSelected, isVideo, isAudio] using hsel



/-- C11 as stated fails: "NaN" contains no decimal digit, so it is no decimal
number, yet the float library accepts it and the construction succeeds. -/
theorem NewVideoInfo_accepts_nan :
    hasDecimalDigit nanDuration.Format.Duration = false ∧
    ∃ v, (NewVideoInfo (tickingEnv nanDuration) "movie.mp4").2 = .ok v :=
  ⟨rfl, _, rfl⟩

/-- C11 amended: when `strconv.ParseFloat` rejects `format.duration`,
`calculateDuration` panics with that parse error and so does `NewVideoInfo`, no
record being produced; and `calculateDuration` panics in no other case. -/
theorem calculateDuration_parse_error {Float64 : Type} (env : Env Float64) (filename : String)
    (data : ProbeResult) (err : NumError)
    (hp : env.callffprobe filename = .ok data)
    (herr : env.ParseFloat data.Format.Duration = .error err) :
    (∀ v : VideoInfo, v.ProbeResult = data →
      calculateDuration env v = .error (.numError err)) ∧
    (NewVideoInfo env filename).2 = .error (.numError err) ∧
    (∀ (v : VideoInfo) (e : Panic), calculateDuration env v = .error e →
      ∃ err', env.ParseFloat v.ProbeResult.Format.Duration = .error err' ∧
        e = .numError err') := by
  have h1 : ∀ v : VideoInfo, v.ProbeResult = data →
      calculateDuration env v = .error (.numError err) := by
    intro v hv
    unfold calculateDuration
    rw [hv, herr]
  refine ⟨h1, ?_, ?_⟩
  · unfold NewVideoInfo
    simp only [hp]
    rw [h1 _ rfl]
  · intro v e he
    unfold calculateDuration at he
    cases hf : env.ParseFloat v.ProbeResult.Format.Duration with
    | error err' =>
      rw [hf] at he
      simp only [Except.error.injEq] at he
      exact ⟨err', rfl, he.symm⟩
    | ok f =>
      rw [hf] at he
      cases he

/-- C11 amended at `malformedDuration`: the duration "not-a-number" makes the
construction panic with the syntax error of `ParseFloat`. -/
theorem calculateDuration_parse_error_witness :
    (fixedEnv malformedDuration).callffprobe "movie.mp4" = .ok malformedDuration ∧
    (fixedEnv malformedDuration).ParseFloat malformedDuration.Format.Duration =
      .error ⟨"ParseFloat", "not-a-number", .invalid⟩ ∧
    (NewVideoInfo (fixedEnv malformedDuration) "movie.mp4").2 =
      .error (.numError ⟨"ParseFloat", "not-a-number", .invalid⟩) :=
  ⟨rfl, rfl,
    (calculateDuration_parse_error (fixedEnv malformedDuration) "movie.mp4" malformedDuration
      ⟨"ParseFloat", "not-a-number", .invalid⟩ rfl rfl).2.1⟩

/-- C12: on a successful construction `has_multiple_video` is true exactly when
`video_bitrates` has more than one entry, that is when at least two streams of
the probe result have `codec_type` "video"; likewise `has_multiple_audio`. -/
theorem NewVideoInfo_multiplicity {Float64 : Type} (env : Env Float64) (filename : String)
    (data : ProbeResult) (v : VideoInfo)
    (hp : env.callffprobe filename = .ok data)
    (h : (NewVideoInfo env filename).2 = .ok v) :
    (v.HasMultipleVideo = true ↔ v.VideoBitrates.length > 1) ∧
    (v.HasMultipleVideo = true ↔
      2 ≤ (data.Streams.filter (fun s => s.CodecType = "video")).length) ∧
    (v.HasMultipleAudio = true ↔ v.AudioBitrates.length > 1) ∧
    (v.HasMultipleAudio = true ↔
      2 ≤ (data.Streams.filter (fun s => s.CodecType = "audio")).length) := by
  obtain ⟨hc, _, hvb, _, hab⟩ := NewVideoInfo_sequences h
  have hdata : v.ProbeResult = data := by
    rw [hp] at hc
    exact (Except.ok.inj hc).symm
  obtain ⟨_, _, hma, hmv, _⟩ := NewVideoInfo_fields h
  rw [hdata] at hvb hab
  have lv : v.VideoBitrates.length =
      (data.Streams.filter (fun s => s.CodecType = "video")).length := by
    rw [hvb, List.length_map]; rfl
  have la : v.AudioBitrates.length =
      (data.Streams.filter (fun s => s.CodecType = "audio")).length := by
    rw [hab, List.length_map]; rfl
  have kv : v.HasMultipleVideo = true ↔ v.VideoBitrates.length > 1 := by
    rw [hmv, decide_eq_true_iff]
  have ka : v.HasMultipleAudio = true ↔ v.AudioBitrates.length > 1 := by
    rw [hma, decide_eq_true_iff]
  refine ⟨kv, ?_, ka, ?_⟩
  · rw [kv, lv]; exact Iff.rfl
  · rw [ka, la]; exact Iff.rfl

/-- C12 at `mixedStreams`: two video and two audio streams set both flags. -/
theorem NewVideoInfo_multiplicity_witness :
    ∃ v, (fixedEnv mixedStreams).callffprobe "movie.mp4" = .ok mixedStreams ∧
      (NewVideoInfo (fixedEnv mixedStreams) "movie.mp4").2 = .ok v ∧
      v.HasMultipleVideo = true ∧ v.VideoBitrates.length = 2 ∧
      (v.HasMultipleVideo = true ↔ v.VideoBitrates.length > 1) :=
  ⟨_, rfl, rfl, rfl, rfl,
    (NewVideoInfo_multiplicity (fixedEnv mixedStreams) "movie.mp4" mixedStreams _ rfl rfl).1⟩

/-- C13: in every constructed record `video_formats` and `video_bitrates` have
the same length, and so have `audio_formats` and `audio_bitrates`. -/
theorem NewVideoInfo_lengths {Float64 : Type} (env : Env Float64) (filename : String)
    (v : VideoInfo) (h : (NewVideoInfo env filename).2 = .ok v) :
    v.VideoFormats.length = v.VideoBitrates.length ∧
    v.AudioFormats.length = v.AudioBitrates.length := by
  obtain ⟨_, hvf, hvb, haf, hab⟩ := NewVideoInfo_sequences h
  rw [hvf, hvb, haf, hab]
  simp only [List.length_map, and_self]

/-- C13 at `mixedStreams`: both pairs of sequences have length 2. -/
theorem NewVideoInfo_lengths_witness :
    ∃ v, (NewVideoInfo (fixedEnv mixedStreams) "movie.mp4").2 = .ok v ∧
      v.VideoFormats.length = 2 ∧ v.VideoBitrates.length = 2 ∧
      v.VideoFormats.length = v.VideoBitrates.length ∧
      v.AudioFormats.length = v.AudioBitrates.length :=
  ⟨_, rfl, rfl, rfl, NewVideoInfo_lengths (fixedEnv mixedStreams) "movie.mp4" _ rfl⟩


/-- C14 as stated fails: on a container whose duration reads "-5" the
construction succeeds with `duration = -5`. -/
theorem NewVideoInfo_negative_duration :
    ∃ v, (NewVideoInfo (tickingEnv negativeDuration) "movie.mp4").2 = .ok v ∧
      v.Duration = -5 ∧ v.Duration < 0 :=
  ⟨_, rfl, rfl, by decide⟩

/-- C14 amended: on a successful construction `strconv.ParseFloat` has accepted
`format.duration`, `duration` is `int(math.Ceil(f))` for the float `f` it
returned, and so `duration >= 0` holds if and only if that value is not
negative. -/
theorem NewVideoInfo_duration {Float64 : Type} (env : Env Float64) (filename : String)
    (data : ProbeResult) (v : VideoInfo)
    (hp : env.callffprobe filename = .ok data)
    (h : (NewVideoInfo env filename).2 = .ok v) :
    ∃ f, env.ParseFloat data.Format.Duration = .ok f ∧
      v.Duration = env.ceilToInt f ∧
      (0 ≤ v.Duration ↔ 0 ≤ env.ceilToInt f) := by
  obtain ⟨hc, _⟩ := NewVideoInfo_sequences h
  have hdata : v.ProbeResult = data := by
    rw [hp] at hc
    exact (Except.ok.inj hc).symm
  obtain ⟨⟨f, hf, hdur⟩, _⟩ := NewVideoInfo_fields h
  rw [hdata] at hf
  exact ⟨f, hf, hdur, by rw [hdur]⟩

/-- C14 amended at `mixedStreams` and at `negativeDuration`: the duration "30"
gives `duration = 30`, the ceiling of the parsed float, and the duration "-5"
gives a `duration` that is negative as the ceiling of the parsed float is. -/
theorem NewVideoInfo_duration_witness :
    (∃ v, (tickingEnv mixedStreams).callffprobe "movie.mp4" = .ok mixedStreams ∧
      (NewVideoInfo (tickingEnv mixedStreams) "movie.mp4").2 = .ok v ∧
      v.Duration = 30 ∧
      ∃ f, (tickingEnv mixedStreams).ParseFloat mixedStreams.Format.Duration = .ok f ∧
        v.Duration = (tickingEnv mixedStreams).ceilToInt f ∧
        (0 ≤ v.Duration ↔ 0 ≤ (tickingEnv mixedStreams).ceilToInt f)) ∧
    (∃ v, (NewVideoInfo (tickingEnv negativeDuration) "movie.mp4").2 = .ok v ∧
      v.Duration = -5 ∧
      ∃ f, (tickingEnv negativeDuration).ParseFloat negativeDuration.Format.Duration = .ok f ∧
        v.Duration = (tickingEnv negativeDuration).ceilToInt f ∧
        (0 ≤ v.Duration ↔ 0 ≤ (tickingEnv negativeDuration).ceilToInt f)) :=
  ⟨⟨_, rfl, rfl, rfl,
      NewVideoInfo_duration (tickingEnv mixedStreams) "movie.mp4" mixedStreams _ rfl rfl⟩,
    ⟨_, rfl, rfl,
      NewVideoInfo_duration (tickingEnv negativeDuration) "movie.mp4" negativeDuration _
        rfl rfl⟩⟩

/-- C15: in every constructed record `pixels >= 0`, whatever the widths and
heights of the streams, negative and very large ones included. -/
theorem NewVideoInfo_pixels_nonneg {Float64 : Type} (env : Env Float64) (filename : String)
    (v : VideoInfo) (h : (NewVideoInfo env filename).2 = .ok v) :
    0 ≤ v.Pixels :=
  (NewVideoInfo_fields h).2.2.2.2.1

/-- C15 at `oddFrames`: a negative width and a product beyond the signed 64-bit
range leave `pixels = 0`. -/
theorem NewVideoInfo_pixels_nonneg_witness :
    ∃ v, (NewVideoInfo (fixedEnv oddFrames) "movie.mp4").2 = .ok v ∧
      v.Pixels = 0 ∧ 0 ≤ v.Pixels :=
  ⟨_, rfl, rfl, NewVideoInfo_pixels_nonneg (fixedEnv oddFrames) "movie.mp4" _ rfl⟩

/-- C16 as stated fails: in `NewVideoInfo` the probe comes first and the clock
read second, so the clock read does not precede the probe; with a clock that
shows 1000 before the probe and 1005 after it, `at_time` is 1005. -/
theorem NewVideoInfo_clock_not_before_probe :
    (NewVideoInfo (tickingEnv mixedStreams) "movie.mp4").1 =
      [.ffprobe "movie.mp4", .clockRead] ∧
    precedes .clockRead (.ffprobe "movie.mp4")
      (NewVideoInfo (tickingEnv mixedStreams) "movie.mp4").1 = false ∧
    (tickingEnv mixedStreams).unixNow [] = 1000 ∧
    ∃ v, (NewVideoInfo (tickingEnv mixedStreams) "movie.mp4").2 = .ok v ∧ v.AtTime = 1005 :=
  ⟨rfl, rfl, rfl, _, rfl, rfl⟩

/-- C16 amended: the constructor calls the probe invoker first. When the probe
fails the constructor panics with the probe's error and that call is its only
effect, so no clock read happens; when the probe succeeds the effects are that
call followed by a single clock read, whatever happens afterwards. In no case
does a clock read precede the probe, and a constructed record holds in
`at_time` the clock value read after the probe has returned. -/
theorem NewVideoInfo_clock_after_probe {Float64 : Type} (env : Env Float64)
    (filename : String) :
    (∀ e, env.callffprobe filename = .error e →
      NewVideoInfo env filename = ([.ffprobe filename], .error e)) ∧
    (∀ data, env.callffprobe filename = .ok data →
      (NewVideoInfo env filename).1 = [.ffprobe filename, .clockRead]) ∧
    precedes .clockRead (.ffprobe filename) (NewVideoInfo env filename).1 = false ∧
    (NewVideoInfo env filename).1.count .clockRead ≤ 1 ∧
    (∀ v, (NewVideoInfo env filename).2 = .ok v →
      (NewVideoInfo env filename).1 = [.ffprobe filename, .clockRead] ∧
      precedes (.ffprobe filename) .clockRead (NewVideoInfo env filename).1 = true ∧
      v.AtTime = env.unixNow [.ffprobe filename]) := by
  cases hc : env.callffprobe filename with
  | error e0 =>
    have hall : NewVideoInfo env filename = ([.ffprobe filename], .error e0) := by
      unfold NewVideoInfo
      simp only [hc]
    rw [hall]
    refine ⟨?_, ?_, ?_, ?_, ?_⟩
    · intro e he
      cases he
      rfl
    · intro data hd
      cases hd
    · simp [precedes]
    · simp
    · intro v hv
      cases hv
  | ok data0 =>
    have htrace : (NewVideoInfo env filename).1 = [.ffprobe filename, .clockRead] := by
      unfold NewVideoInfo
      simp only [hc]
    refine ⟨?_, ?_, ?_, ?_, ?_⟩
    · intro e he
      cases he
    · intro _ _
      exact htrace
    · rw [htrace]
      simp [precedes]
    · rw [htrace]
      simp
    · intro v hv
      refine ⟨htrace, ?_, (NewVideoInfo_fields hv).2.1⟩
      rw [htrace]
      simp [precedes]

/-- C16 amended at `failingEnv` and at `mixedStreams`: a failing probe is the
only effect and no clock is read; a successful one is followed by the clock
read, and `at_time` is the clock after the probe, 1005. -/
theorem NewVideoInfo_clock_after_probe_witness :
    NewVideoInfo failingEnv "movie.mp4" =
      ([.ffprobe "movie.mp4"],
        .error (.external "exec: ffprobe: executable file not found")) ∧
    (NewVideoInfo failingEnv "movie.mp4").1.count .clockRead = 0 ∧
    (NewVideoInfo (tickingEnv mixedStreams) "movie.mp4").1 =
      [.ffprobe "movie.mp4", .clockRead] ∧
    ∃ v, (NewVideoInfo (tickingEnv mixedStreams) "movie.mp4").2 = .ok v ∧
      precedes (.ffprobe "movie.mp4") .clockRead
        (NewVideoInfo (tickingEnv mixedStreams) "movie.mp4").1 = true ∧
      v.AtTime = (tickingEnv mixedStreams).unixNow [.ffprobe "movie.mp4"] ∧
      v.AtTime = 1005 :=
  ⟨(NewVideoInfo_clock_after_probe failingEnv "movie.mp4").1 _ rfl,
    rfl,
    (NewVideoInfo_clock_after_probe (tickingEnv mixedStreams) "movie.mp4").2.1 _ rfl,
    _, rfl,
    ((NewVideoInfo_clock_after_probe (tickingEnv mixedStreams) "movie.mp4").2.2.2.2 _ rfl).2.1,
    ((NewVideoInfo_clock_after_probe (tickingEnv mixedStreams) "movie.mp4").2.2.2.2 _ rfl).2.2,
    rfl⟩

/-- C17: on a list in which every element is at most `2^63 - 1`, `sum` panics
exactly when the exact total exceeds `2^63 - 1`, and otherwise returns the exact
total, which is then at most `2^63 - 1`. -/
theorem sum_within_signed_range (l : List Nat) (hl : ∀ n ∈ l, n ≤ 2 ^ 63 - 1) :
    ((∃ e, sum l = .error e) ↔ 2 ^ 63 - 1 < l.sum) ∧
    (2 ^ 63 - 1 < l.sum → sum l = .error (.message "Overflow while summing")) ∧
    (l.sum ≤ 2 ^ 63 - 1 → sum l = .ok l.sum) ∧
    (∀ r, sum l = .ok r → r = l.sum ∧ r ≤ 2 ^ 63 - 1) := by
  have hM : (2 : Nat) ^ 63 - 1 = MaxInt := rfl
  rw [hM] at hl ⊢
  have key := sumLoop_of_le l 0 (Nat.zero_le _) hl
  rw [Nat.zero_add] at key
  unfold sum
  rw [key]
  by_cases hle : l.sum ≤ MaxInt
  · rw [if_pos hle]
    refine ⟨?_, ?_, ?_, ?_⟩
    · constructor
      · rintro ⟨e, he⟩; cases he
      · intro hlt; omega
    · intro hlt; omega
    · intro _; rfl
    · intro r hr
      have := Except.ok.inj hr
      omega
  · rw [if_neg hle]
    refine ⟨?_, ?_, ?_, ?_⟩
    · constructor
      · intro _; omega
      · intro _; exact ⟨_, rfl⟩
    · intro _; rfl
    · intro hle'; exact absurd hle' hle
    · intro r hr; cases hr

/-- C17 at two lists of elements within the range: a total of exactly `2^63 - 1`
is returned, and one more makes `sum` panic. -/
theorem sum_within_signed_range_witness :
    (∀ n ∈ [9223372036854775806, 1, 0], n ≤ 2 ^ 63 - 1) ∧
    sum [9223372036854775806, 1, 0] = .ok 9223372036854775807 ∧
    ((∃ e, sum [9223372036854775806, 1, 1] = .error e) ↔
      2 ^ 63 - 1 < [9223372036854775806, 1, 1].sum) :=
  ⟨by decide,
    (sum_within_signed_range [9223372036854775806, 1, 0] (by decide)).2.2.1 (by decide),
    (sum_within_signed_range [9223372036854775806, 1, 1] (by decide)).1⟩

/-- C18: when every video and audio stream's bit rate is at most `2^63 - 1` and
the construction succeeds, the running total has not wrapped: `bitrate` is the
exact sum of the bit rates of the video and audio streams, it is at most
`2^64 - 2`, and it equals `video_bitrate + audio_bitrate`. -/
theorem NewVideoInfo_bitrate_exact {Float64 : Type} (env : Env Float64) (filename : String)
    (data : ProbeResult) (v : VideoInfo)
    (hp : env.callffprobe filename = .ok data)
    (hall : ∀ s ∈ data.Streams, (s.CodecType = "video" ∨ s.CodecType = "audio") →
      decimalValue s.BitRate ≤ 2 ^ 63 - 1)
    (h : (NewVideoInfo env filename).2 = .ok v) :
    v.Bitrate =
      ((data.Streams.filter (fun s => s.CodecType = "video" ∨ s.CodecType = "audio")).map
        (fun s => decimalValue s.BitRate)).sum ∧
    v.Bitrate ≤ 2 ^ 64 - 2 ∧
    v.Bitrate = v.VideoBitrate + v.AudioBitrate := by
  obtain ⟨hc, _, hvb, _, hab⟩ := NewVideoInfo_sequences h
  have hdata : v.ProbeResult = data := by
    rw [hp] at hc
    exact (Except.ok.inj hc).symm
  obtain ⟨_, _, _, _, _, hbit, hsa, hsv⟩ := NewVideoInfo_fields h
  rw [hdata] at hvb hab hbit
  have hM : (2 : Nat) ^ 63 - 1 = MaxInt := rfl
  rw [hM] at hall
  have hvle : ∀ n ∈ v.VideoBitrates, n ≤ MaxInt := by
    intro n hn
    rw [hvb] at hn
    obtain ⟨s, hs, rfl⟩ := List.mem_map.mp hn
    have hs' := List.mem_filter.mp hs
    exact hall s hs'.1 (Or.inl (by simpa [isVideo] using hs'.2))
  have hale : ∀ n ∈ v.AudioBitrates, n ≤ MaxInt := by
    intro n hn
    rw [hab] at hn
    obtain ⟨s, hs, rfl⟩ := List.mem_map.mp hn
    have hs' := List.mem_filter.mp hs
    exact hall s hs'.1 (Or.inr (by simpa [isAudio] using hs'.2))
  have kv := sumLoop_of_le v.VideoBitrates 0 (Nat.zero_le _) hvle
  have ka := sumLoop_of_le v.AudioBitrates 0 (Nat.zero_le _) hale
  rw [Nat.zero_add] at kv ka
  unfold sum at hsa hsv
  rw [kv] at hsv
  rw [ka] at hsa
  have ev : v.VideoBitrates.sum ≤ MaxInt ∧ v.VideoBitrate = v.VideoBitrates.sum := by
    by_cases hle : v.VideoBitrates.sum ≤ MaxInt
    · rw [if_pos hle] at hsv
      exact ⟨hle, (Except.ok.inj hsv).symm⟩
    · rw [if_neg hle] at hsv
      cases hsv
  have ea : v.AudioBitrates.sum ≤ MaxInt ∧ v.AudioBitrate = v.AudioBitrates.sum := by
    by_cases hle : v.AudioBitrates.sum ≤ MaxInt
    · rw [if_pos hle] at hsa
      exact ⟨hle, (Except.ok.inj hsa).symm⟩
    · rw [if_neg hle] at hsa
      cases hsa
  have hsplit := sum_selected_split (fun s => decimalValue s.BitRate) data.Streams
  rw [← hvb, ← hab] at hsplit
  have hsel : data.Streams.filter (fun s => s.CodecType = "video" ∨ s.CodecType = "audio") =
      data.Streams.filter isSelected := by
    congr 1
    funext s
    simp [isSelected, isVideo, isAudio]
  rw [hsel, hsplit]
  rw [hsplit] at hbit
  have e64 : (2 : Nat) ^ 64 - 2 = 18446744073709551614 := by norm_num
  rw [e64]
  rw [MaxInt_eq] at ev ea
  obtain ⟨ev1, ev2⟩ := ev
  obtain ⟨ea1, ea2⟩ := ea
  rw [ev2, ea2]
  omega

/-- C18 at `maxVideoMaxAudio`: one video and one audio stream at `2^63 - 1` each
give `bitrate = 2^64 - 2`. -/
theorem NewVideoInfo_bitrate_exact_witness :
    ∃ v, (fixedEnv maxVideoMaxAudio).callffprobe "movie.mp4" = .ok maxVideoMaxAudio ∧
      (∀ s ∈ maxVideoMaxAudio.Streams, (s.CodecType = "video" ∨ s.CodecType = "audio") →
        decimalValue s.BitRate ≤ 2 ^ 63 - 1) ∧
      (NewVideoInfo (fixedEnv maxVideoMaxAudio) "movie.mp4").2 = .ok v ∧
      v.Bitrate = 18446744073709551614 ∧ v.Bitrate ≤ 2 ^ 64 - 2 :=
  ⟨_, rfl, by decide, rfl, rfl,
    (NewVideoInfo_bitrate_exact (fixedEnv maxVideoMaxAudio) "movie.mp4" maxVideoMaxAudio _
      rfl (by decide) rfl).2.1⟩


end Goffprobe
